import Mathlib

/-!
Verification development for the Lumi-Systems setup application.

This file gives a shallow embedding, in Lean 4, of the parts of the
program that the checked specification sentences talk about:

* the installer backend (`backend/installer.py`): the recoverable-error
  policy, the per-application installation-step catalog, the main run
  loop with its cooperative stop flag, and the per-app result records;
* the progress tracker (`backend/progress_tracker.py`): counters and the
  overall-progress percentage, whose Python source computes
  `int(total_processed / total_apps * 100)` in IEEE-754 double
  precision — modelled here exactly by dyadic rationals with
  round-to-nearest-even to 53 significant bits;
* the version manager (`src/updater/version_manager.py`);
* the manifest generator (`src/updater/manifest_generator.py`);
* the source checker (`src/updater/source_checker.py`).

Python strings are Lean `String`s, Python dicts that preserve insertion
order are association lists, Python `None`-able values are `Option`s,
and wall-clock readings are abstracted by a monotone step counter that
advances at each read of the shared stop flag.
-/

namespace LumiSetup

/-- Case-insensitive substring test: models the Python idiom
`pattern.lower() in text.lower()` (every string involved is ASCII, so
per-character lowering agrees with Python's `str.lower`). -/
def containsCI (text pattern : String) : Bool :=
  decide ((pattern.data.map Char.toLower) <:+: (text.data.map Char.toLower))

/-- Case-sensitive substring test, models Python `pattern in text`. -/
def containsStr (text pattern : String) : Bool :=
  decide (pattern.data <:+: text.data)

/-- Split a character list at every occurrence of a separator
character.  This is Python `s.split(sep)` for a one-character `sep`
(the only shape the program uses: `"."` and `"\n"`), so the result is
never empty and empty fields are kept. -/
def splitChars (sep : Char) : List Char → List (List Char)
  | [] => [[]]
  | ch :: rest =>
    let groups := splitChars sep rest
    if ch = sep then [] :: groups
    else
      match groups with
      | [] => [[ch]]
      | g :: gs => (ch :: g) :: gs

/-- Python `s.split(sep)` on strings, one-character separator. -/
def splitStr (sep : Char) (s : String) : List String :=
  (splitChars sep s.data).map (fun l => ⟨l⟩)

/-- Python `int(s)` restricted to the unsigned decimal numerals this
program ever feeds it (the components of its own version strings):
`none` models the `ValueError` raise on anything else.  Semantics of
`String.toNat?`, written over the character list so it computes by
`decide`. -/
def strToNat? (s : String) : Option Nat :=
  if s.data ≠ [] ∧ s.data.all Char.isDigit then
    some (s.data.foldl (fun n ch => n * 10 + (ch.toNat - '0'.toNat)) 0)
  else none

/-! ## Installer: recoverable-error policy (backend/installer.py, is_recoverable_error) -/

/-- The step-label keywords of `InstallationManager.is_recoverable_error`:
only steps whose label mentions one of these is eligible for recovery. -/
def stepKeywords : List String := ["update", "repository", "gpg", "key"]

/-- The `recoverable_patterns` list of `InstallationManager.is_recoverable_error`. -/
def recoverablePatterns : List String :=
  ["Update package lists", "apt update", "OpenPGP", "NO_PUBKEY",
   "not signed", "repository", "GPG"]

/-- Embedding of `InstallationManager.is_recoverable_error(step_name, error)`. -/
def isRecoverableError (stepName error : String) : Bool :=
  if stepKeywords.any (fun p => containsCI stepName p) then
    recoverablePatterns.any (fun p => containsCI error p)
  else
    false

/-! ## Exact model of the Python float expressions

`ProgressTracker.complete_app_installation` computes
`int(total_processed / self.total_apps * 100)`: a true division of two
ints producing an IEEE-754 binary64 value, a float multiplication by
100, then truncation toward zero.  Both operations round to nearest,
ties to even, at 53 significant bits; all values arising here are far
from the subnormal and overflow ranges, so that rounding rule is the
whole story.  We model binary64 values as dyadic rationals. -/

/-- A non-negative dyadic rational: value `m * 2 ^ e`.  The results of
`roundRat` keep `m` in `[2^52, 2^53]`, mirroring a binary64 significand
(a carried `2^53` denotes the same value as `2^52` one exponent up). -/
structure PFloat where
  m : Nat
  e : Int
  deriving DecidableEq, Repr

/-- Floor of the base-2 logarithm by fuelled halving (structural
recursion, so it computes inside the kernel, unlike the well-founded
`Nat.log2`). -/
def log2Fuel : Nat → Nat → Nat
  | 0, _ => 0
  | f + 1, n => if 2 ≤ n then log2Fuel f (n / 2) + 1 else 0

/-- Floor of the base-2 logarithm.  256 halvings are exact for every
argument below `2 ^ 256`, which covers every quantity this model is
ever evaluated at (the arguments are scaled application counts, bounded
far below `2 ^ 150`). -/
def natLog2 (n : Nat) : Nat := log2Fuel 256 n

/-- Round the non-negative rational `a / b` to 53 significant bits,
nearest, ties to even: the binary64 result of a Python operation
producing `a / b` exactly.  (Junk value when `b = 0`; the one Python
site that can divide by zero raises instead, which is modelled
separately by a raised flag.) -/
def roundRat (a b : Nat) : PFloat :=
  if a = 0 then ⟨0, 0⟩ else
  let t := natLog2 (a * 2 ^ 100 / b)
  let sh : Int := 152 - (t : Int)
  let num := a * 2 ^ sh.toNat
  let den := b * 2 ^ (-sh).toNat
  let q := num / den
  let r := num % den
  let m := if den < 2 * r then q + 1
           else if 2 * r < den then q
           else if q % 2 = 0 then q else q + 1
  ⟨m, (t : Int) - 152⟩

/-- Multiply a binary64 value by 100 and round the exact product back
to binary64. -/
def pfMul100 (f : PFloat) : PFloat :=
  if 0 ≤ f.e then roundRat (f.m * 100 * 2 ^ f.e.toNat) 1
  else roundRat (f.m * 100) (2 ^ (-f.e).toNat)

/-- Python `int()` on a non-negative binary64 value: truncation. -/
def pfTrunc (f : PFloat) : Nat :=
  if 0 ≤ f.e then f.m * 2 ^ f.e.toNat else f.m / 2 ^ (-f.e).toNat

/-- The exact value of `int(p / t * 100)` as Python computes it in
binary64 arithmetic (for `t ≠ 0`). -/
def pyProgress (p t : Nat) : Nat :=
  pfTrunc (pfMul100 (roundRat p t))

/-! ## Progress tracker (backend/progress_tracker.py) -/

/-- Zero-pad to two digits: Python `f"{n:02d}"` for non-negative `n`. -/
def pad2 (n : Nat) : String :=
  if n < 10 then "0" ++ toString n else toString n

/-- `InstallationManager.format_time` / the tracker step-time format:
seconds to a zero-padded `MM:SS` string. -/
def formatTime (s : Nat) : String :=
  pad2 (s / 60) ++ ":" ++ pad2 (s % 60)

/-- One value of the tracker's `app_results` dict. -/
structure TrackerResult where
  status : String
  time : Nat
  error : Option String
  deriving DecidableEq, Repr

/-- One element of the tracker's `installation_steps` list. -/
structure StepRecord where
  app : String
  description : String
  status : String
  time : String
  deriving DecidableEq, Repr

/-- The mutable state of `ProgressTracker`.  (The `start_time` attribute
of the Python class is initialised to `None` and never written or read
anywhere, so it is not carried here.)  Wall-clock readings
(`time.time()`) are abstracted to natural-number instants. -/
structure TrackerState where
  totalApps : Nat
  completedApps : Nat
  failedApps : Nat
  alreadyInstalledApps : Nat
  currentApp : String
  currentStep : String
  currentAppProgress : Nat
  overallProgress : Nat
  installationSteps : List StepRecord
  appResults : List (String × TrackerResult)
  currentAppStartTime : Option Nat
  deriving DecidableEq, Repr

/-- `ProgressTracker.__init__`. -/
def initialTracker : TrackerState :=
  ⟨0, 0, 0, 0, "", "", 0, 0, [], [], none⟩

/-- Python dict assignment `d[k] = v` on an insertion-ordered dict
modelled as an association list: replace in place, else append. -/
def assocSet {α : Type} (l : List (String × α)) (k : String) (v : α) :
    List (String × α) :=
  match l with
  | [] => [(k, v)]
  | (k', v') :: rest =>
      if k' = k then (k, v) :: rest else (k', v') :: assocSet rest k v

/-- Apply a function to the last element of a list, if any: models the
Python pattern `lst[-1] = f(lst[-1])`. -/
def updateLast {α : Type} (f : α → α) : List α → List α
  | [] => []
  | [a] => [f a]
  | a :: rest => a :: updateLast f rest

/-- `ProgressTracker.set_total_apps`. -/
def setTotalApps (tr : TrackerState) (total : Nat) : TrackerState :=
  { tr with totalApps := total, overallProgress := 0 }

/-- `ProgressTracker.start_app_installation`.  `now` abstracts
`time.time()` and `clock` the `"%H:%M:%S"` wall-clock string. -/
def startAppInstallation (tr : TrackerState) (app : String) (now : Nat)
    (clock : String) : TrackerState :=
  { tr with
    currentApp := app
    currentStep := "Preparing installation..."
    currentAppProgress := 0
    currentAppStartTime := some now
    installationSteps :=
      tr.installationSteps ++ [⟨app, "Installing " ++ app, "running", clock⟩] }

/-- `ProgressTracker.update_app_step`. -/
def updateAppStep (tr : TrackerState) (stepDescription : String)
    (progress : Option Nat) : TrackerState :=
  { tr with
    currentStep := stepDescription
    currentAppProgress := progress.getD tr.currentAppProgress
    installationSteps :=
      updateLast
        (fun s => { s with
          description := tr.currentApp ++ ": " ++ stepDescription })
        tr.installationSteps }

/-- `ProgressTracker.complete_app_installation`.  Returns the state the
object is left in together with a flag that is `true` exactly when the
call raises `ZeroDivisionError` at the `overall_progress` line (the
counters and `app_results` have already been written at that point; the
step-record update and the current-app reset have not). -/
def completeAppInstallation (tr : TrackerState) (name : String)
    (success : Bool) (errorMessage : Option String) (now : Nat) :
    TrackerState × Bool :=
  let installTime := match tr.currentAppStartTime with
    | some s => now - s
    | none => 0
  let (status, tr1) :=
    if success then
      if errorMessage = some "Already installed" then
        ("already_installed",
         { tr with alreadyInstalledApps := tr.alreadyInstalledApps + 1 })
      else
        ("completed", { tr with completedApps := tr.completedApps + 1 })
    else
      ("failed", { tr with failedApps := tr.failedApps + 1 })
  let tr2 := { tr1 with
    appResults := assocSet tr1.appResults name ⟨status, installTime, errorMessage⟩ }
  if tr2.totalApps = 0 then
    (tr2, true)
  else
    let totalProcessed :=
      tr2.completedApps + tr2.failedApps + tr2.alreadyInstalledApps
    let tr3 := { tr2 with
      overallProgress := pyProgress totalProcessed tr2.totalApps }
    let tr4 := { tr3 with
      installationSteps :=
        updateLast
          (fun s => { s with status := status, time := formatTime installTime })
          tr3.installationSteps }
    ({ tr4 with currentApp := "", currentStep := "", currentAppProgress := 0 },
     false)

/-- The record returned by `ProgressTracker.get_statistics`. -/
structure Statistics where
  totalApps : Nat
  completedApps : Nat
  failedApps : Nat
  alreadyInstalledApps : Nat
  successRate : PFloat
  appResults : List (String × TrackerResult)
  deriving DecidableEq, Repr

/-- `ProgressTracker.get_statistics`: the success-rate division is
guarded by `if self.total_apps > 0 else 0`, so this never raises. -/
def getStatistics (tr : TrackerState) : Statistics :=
  let successfulApps := tr.completedApps + tr.alreadyInstalledApps
  { totalApps := tr.totalApps
    completedApps := tr.completedApps
    failedApps := tr.failedApps
    alreadyInstalledApps := tr.alreadyInstalledApps
    successRate :=
      if 0 < tr.totalApps then pfMul100 (roundRat successfulApps tr.totalApps)
      else ⟨0, 0⟩
    appResults := tr.appResults }

/-! ## Installer: step catalog and run loop (backend/installer.py) -/

/-- `InstallationManager.get_installation_steps`: the fixed
application-to-steps catalog, exact labels and shell commands.
`get_install_commands` copies this mapping unchanged, so both Python
methods are this one definition. -/
def installationSteps : List (String × List (String × String)) :=
  [("firefox",
    [("Update package lists", "sudo apt update"),
     ("Install Firefox", "sudo apt install -y firefox")]),
   ("thunderbird",
    [("Update package lists", "sudo apt update"),
     ("Install Thunderbird", "sudo apt install -y thunderbird")]),
   ("libreoffice",
    [("Update package lists", "sudo apt update"),
     ("Install LibreOffice", "sudo apt install -y libreoffice")]),
   ("gimp",
    [("Update package lists", "sudo apt update"),
     ("Install GIMP", "sudo apt install -y gimp")]),
   ("vlc",
    [("Update package lists", "sudo apt update"),
     ("Install VLC", "sudo apt install -y vlc")]),
   ("code",
    [("Add Microsoft GPG key",
      "wget -qO- https://packages.microsoft.com/keys/microsoft.asc | gpg --dearmor > packages.microsoft.gpg"),
     ("Install GPG key",
      "sudo install -o root -g root -m 644 packages.microsoft.gpg /etc/apt/trusted.gpg.d/"),
     ("Add VS Code repository",
      "echo \"deb [arch=amd64,arm64,armhf signed-by=/etc/apt/trusted.gpg.d/packages.microsoft.gpg] https://packages.microsoft.com/repos/code stable main\" | sudo tee /etc/apt/sources.list.d/vscode.list"),
     ("Update package lists", "sudo apt update"),
     ("Install VS Code", "sudo apt install -y code")]),
   ("git",
    [("Update package lists", "sudo apt update"),
     ("Install Git", "sudo apt install -y git")]),
   ("python3",
    [("Update package lists", "sudo apt update"),
     ("Install Python 3", "sudo apt install -y python3 python3-pip")]),
   ("nodejs",
    [("Update package lists", "sudo apt update"),
     ("Install Node.js", "sudo apt install -y nodejs npm")]),
   ("docker",
    [("Update package lists", "sudo apt update"),
     ("Install prerequisites",
      "sudo apt install -y apt-transport-https ca-certificates curl gnupg lsb-release"),
     ("Add Docker GPG key",
      "curl -fsSL https://download.docker.com/linux/ubuntu/gpg | sudo gpg --dearmor -o /usr/share/keyrings/docker-archive-keyring.gpg"),
     ("Add Docker repository",
      "echo \"deb [arch=$(dpkg --print-architecture) signed-by=/usr/share/keyrings/docker-archive-keyring.gpg] https://download.docker.com/linux/ubuntu $(lsb_release -cs) stable\" | sudo tee /etc/apt/sources.list.d/docker.list > /dev/null"),
     ("Update package lists", "sudo apt update"),
     ("Install Docker",
      "sudo apt install -y docker-ce docker-ce-cli containerd.io")]),
   ("rustdesk",
    [("Download RustDesk",
      "wget -O /tmp/rustdesk.deb https://github.com/rustdesk/rustdesk/releases/download/1.2.3/rustdesk-1.2.3-x86_64.deb"),
     ("Install RustDesk",
      "sudo dpkg -i /tmp/rustdesk.deb || sudo apt-get install -f -y")]),
   ("steam",
    [("Enable multiverse repository", "sudo add-apt-repository multiverse -y"),
     ("Update package lists", "sudo apt update"),
     ("Install Steam", "sudo apt install -y steam")]),
   ("discord",
    [("Download Discord",
      "wget -O /tmp/discord.deb \"https://discordapp.com/api/download?platform=linux&format=deb\""),
     ("Install Discord",
      "sudo dpkg -i /tmp/discord.deb || sudo apt-get install -f -y")]),
   ("htop",
    [("Update package lists", "sudo apt update"),
     ("Install htop", "sudo apt install -y htop")]),
   ("curl",
    [("Update package lists", "sudo apt update"),
     ("Install curl", "sudo apt install -y curl")]),
   ("wget",
    [("Update package lists", "sudo apt update"),
     ("Install wget", "sudo apt install -y wget")]),
   ("zip",
    [("Update package lists", "sudo apt update"),
     ("Install zip utilities", "sudo apt install -y zip unzip")])]

/-- The environment an installation run interacts with: the outcome of
the presence-check commands run by `check_if_installed`, the
`(success, stderr)` outcome of each shell command run through
`ScriptRunner.run_command`, and the wall-clock string recorded in step
records.  The run reads the shared `should_stop` flag at well-defined
points; those reads are numbered by a step counter, and a stop signal
is a predicate on read numbers. -/
structure World where
  isInstalled : String → Bool
  runCommand : String → Bool × String
  clock : Nat → String

/-- One per-application entry of the manager's `results['applications']`
list. -/
structure AppResult where
  name : String
  status : String
  time : String
  error : Option String
  details : String
  deriving DecidableEq, Repr

/-- The run-scoped state accumulated by `run_installation`: the
tracker, the results list, the sequence of `overall_progress` values
reported right after each completion, and whether an unhandled
exception aborted the loop (only the tracker's division by zero can do
so in this model). -/
structure RunState where
  tracker : TrackerState
  results : List AppResult
  trace : List Nat
  aborted : Bool
  deriving DecidableEq, Repr

/-- The step loop inside `install_application`: arguments are the
remaining `(label, command)` pairs, the total step count `n`, the
current index `i`, the start instant `t0` and the current read
counter `t`.  Returns the tracker (mutated by `update_app_step`), the
`(success, error, time)` triple the Python method returns, and the
advanced read counter.  The `is_paused` flag is `False` throughout a
non-paused run, so the busy-wait loop is not represented. -/
def installStepsLoop (stop : Nat → Bool) (w : World) (tr : TrackerState)
    (app : String) :
    List (String × String) → Nat → Nat → Nat → Nat →
    TrackerState × (Bool × Option String × String) × Nat
  | [], _, _, t0, t => (tr, (true, none, formatTime (t - t0)), t)
  | (stepName, command) :: rest, n, i, t0, t =>
    if stop t then
      (tr, (false, some "Installation stopped by user", formatTime (t - t0)),
       t + 1)
    else
      let tr1 := updateAppStep tr stepName (some (pyProgress i n))
      let (ok, err) := w.runCommand command
      if ok then installStepsLoop stop w tr1 app rest n (i + 1) t0 (t + 1)
      else if isRecoverableError stepName err then
        installStepsLoop stop w tr1 app rest n (i + 1) t0 (t + 1)
      else
        (tr1, (false, some (stepName ++ " failed: " ++ err),
               formatTime (t - t0)), t + 1)

/-- `InstallationManager.install_application(app_name, steps)`.  (The
`steps` argument of the Python method is unused; the method looks the
application up in `get_install_commands()`.)  The surrounding
`try/except` can only fire on an exception raised inside the body;
every failure of the command runner is returned as a value, so the
fallback branch is unreachable in this model. -/
def installApplication (stop : Nat → Bool) (w : World) (tr : TrackerState)
    (appName : String) (t : Nat) :
    TrackerState × (Bool × Option String × String) × Nat :=
  match installationSteps.lookup appName with
  | none => (tr, (false, some ("Unknown application: " ++ appName), "00:00"), t)
  | some commands => installStepsLoop stop w tr appName commands commands.length 0 t t

/-- The per-application loop of `run_installation`: two reads of
`should_stop` at the top of each iteration (the `if` at the loop head
and the re-check after the pause wait), the already-installed
short-circuit, and the install-and-record path.  A `True` result of
either read breaks the loop. -/
def runLoop (stop : Nat → Bool) (w : World) :
    List String → Nat → RunState → RunState
  | [], _, s => s
  | appName :: rest, t, s =>
    if stop t then s
    else if stop (t + 1) then s
    else
      let t2 := t + 2
      let tr0 := startAppInstallation s.tracker appName t2 (w.clock t2)
      if w.isInstalled appName then
        let res := s.results ++
          [⟨appName, "already_installed", "00:00", none,
            "Application is already installed"⟩]
        let (tr1, raised) :=
          completeAppInstallation tr0 appName true (some "Already installed") t2
        if raised then ⟨tr1, res, s.trace, true⟩
        else runLoop stop w rest t2
          ⟨tr1, res, s.trace ++ [tr1.overallProgress], false⟩
      else
        let (tr1, out, t') := installApplication stop w tr0 appName t2
        let ok := out.1
        let err := out.2.1
        let timeStr := out.2.2
        let res := s.results ++
          [⟨appName, if ok then "success" else "failed", timeStr,
            if ok then none else err,
            if ok then "Installation completed successfully"
            else "Installation failed"⟩]
        let (tr2, raised) :=
          completeAppInstallation tr1 appName ok (if ok then none else err) t'
        if raised then ⟨tr2, res, s.trace, true⟩
        else runLoop stop w rest t'
          ⟨tr2, res, s.trace ++ [tr2.overallProgress], false⟩

/-- `InstallationManager.run_installation`: set the tracker total to
the selection size, then run the loop from a fresh state. -/
def runInstallation (stop : Nat → Bool) (w : World) (apps : List String) :
    RunState :=
  runLoop stop w apps 0 ⟨setTotalApps initialTracker apps.length, [], [], false⟩

/-- The processed-application count held by the tracker counters. -/
def sumCounters (tr : TrackerState) : Nat :=
  tr.completedApps + tr.failedApps + tr.alreadyInstalledApps

/-- A monotone stop signal: the user's stop request is a single event,
visible to every later read of `should_stop`.  Read number `T` is the
first to observe it. -/
def stopAt (T : Nat) : Nat → Bool := fun t => T ≤ t

/-- A world in which every command succeeds and nothing is
pre-installed. -/
def smoothWorld : World :=
  ⟨fun _ => false, fun _ => (true, ""), fun _ => "12:00:00"⟩

/-! ## Version manager (src/updater/version_manager.py) -/

/-- The persisted own-version record (`version.json`). -/
structure VersionInfo where
  version : String
  releaseDate : String
  buildNumber : Nat
  features : List String
  deriving DecidableEq, Repr

/-- The changelog section `VersionManager._update_changelog` builds for
a version and a `YYYY-MM-DD` date (the exact f-string template of the
source, which begins and ends with a newline). -/
def changelogEntry (version date : String) : String :=
  "\n## [" ++ version ++ "] - " ++ date ++
  "\n\n### Added\n- Automatic source version checking on startup\n- Update manifest generation system\n- GitHub integration for releases\n- CI/CD pipeline configuration\n\n### Changed\n- Updated to version " ++
  version ++
  "\n- Enhanced logging system\n- Improved error handling\n\n### Fixed\n- Repository cleanup for problematic sources\n- Dependency resolution improvements\n\n---\n"

/-- Python `line.startswith("##")`, written over the character list. -/
def startsWithHashes (l : String) : Bool :=
  match l.data with
  | '#' :: '#' :: _ => true
  | _ => false

/-- The scan for the insertion point in `_update_changelog`: index of
the first line starting with a double hash, or 0 when none does. -/
def headerEnd (lines : List String) : Nat :=
  (lines.findIdx? startsWithHashes).getD 0

/-- Python `'\n'.join(lines)`. -/
def joinLines : List String → String
  | [] => ""
  | [l] => l
  | l :: rest => l ++ "\n" ++ joinLines rest

/-- The fixed header written when `CHANGELOG.md` does not exist yet. -/
def changelogHeader : String :=
  "# Changelog\n\nAll notable changes to Lumi-Setup will be documented in this file.\n\nThe format is based on [Keep a Changelog](https://keepachangelog.com/en/1.0.0/),\nand this project adheres to [Semantic Versioning](https://semver.org/spec/v2.0.0.html).\n\n"

/-- `VersionManager._update_changelog`: the new file content, given the
existing content (`none` when the file is absent). -/
def updateChangelog (existing : Option String) (version date : String) :
    String :=
  let entry := changelogEntry version date
  match existing with
  | some content =>
      let lines := splitStr '\n' content
      joinLines (lines.insertIdx (headerEnd lines) entry)
  | none => changelogHeader ++ entry ++ "\n"

/-- The state a `VersionManager` touches: the in-memory record and the
two files it persists to. -/
structure VMState where
  current : VersionInfo
  versionFile : Option VersionInfo
  changelogFile : Option String
  deriving DecidableEq, Repr

/-- `VersionManager.update_version(major, minor, patch)`.  `nowIso` is
the ISO release-date string and `today` the `YYYY-MM-DD` string used in
the changelog heading.  Returns `none` when the stored version string
does not yield three leading integer components (where the Python
`int()` calls or list indexing would raise); Python would also accept
signs and surrounding whitespace, which no stored version ever has, so
`strToNat?` is the parsing model. -/
def updateVersion (st : VMState) (majorFlag minorFlag patchFlag : Bool)
    (nowIso today : String) : Option (VMState × String) :=
  match splitStr '.' st.current.version with
  | p0 :: p1 :: p2 :: _ =>
    match strToNat? p0, strToNat? p1, strToNat? p2 with
    | some a, some b, some c =>
        let nums :=
          if majorFlag then (a + 1, 0, 0)
          else if minorFlag then (a, b + 1, 0)
          else if patchFlag then (a, b, c + 1)
          else (a, b, c)
        let newVersion :=
          toString nums.1 ++ "." ++ toString nums.2.1 ++ "." ++
          toString nums.2.2
        let newInfo := { st.current with
          version := newVersion
          releaseDate := nowIso
          buildNumber := st.current.buildNumber + 1 }
        some ({ current := newInfo
                versionFile := some newInfo
                changelogFile :=
                  some (updateChangelog st.changelogFile newVersion today) },
              newVersion)
    | _, _, _ => none
  | _ => none

/-! ## Source checker (src/updater/source_checker.py) -/

/-- The two keys of the `additional_info` dict a successful GitHub
probe yields (release assets ending in `.deb`/`.flatpak`, and the
release page URL, which the API may omit). -/
structure GithubExtras where
  downloadUrls : List (String × String)
  releaseUrl : Option String
  deriving DecidableEq, Repr

/-- One entry of the tracked-sources catalog, with every key the code
reads or persists.  Absent dict keys are `none`. -/
structure SourceInfo where
  type : Option String
  repo : Option String
  repoUrl : Option String
  keyUrl : Option String
  package : Option String
  flatpakId : Option String
  snapName : Option String
  nsVersion : Option String
  downloadUrl : Option String
  currentVersion : Option String
  latestVersion : Option String
  lastChecked : Option String
  downloadUrls : List (String × String)
  releaseUrl : Option String
  deriving DecidableEq, Repr

/-- What `check_github_release` returns on success. -/
structure ReleaseInfo where
  version : String
  assets : List (String × String)
  releaseUrl : Option String
  deriving DecidableEq, Repr

/-- The network/subprocess oracles behind the four real probes
(`check_github_release`, `check_apt_package`, `check_flatpak_app`,
`check_snap_package`); a `none` stands for any failure, which the code
logs and treats as no result for the cycle. -/
structure ProbeEnv where
  github : String → Option ReleaseInfo
  apt : String → Option String
  flatpak : String → Option String
  snap : String → Option String

/-- The per-type probe dispatch at the top of the `check_all_sources`
loop body: the probed `latest_version` and, for GitHub sources, the
`additional_info` extras. -/
def probeSource (env : ProbeEnv) (info : SourceInfo) :
    Option String × Option GithubExtras :=
  match info.type with
  | some "github" =>
    match info.repo with
    | some repo =>
      match env.github repo with
      | some r => (some r.version, some ⟨r.assets, r.releaseUrl⟩)
      | none => (none, none)
    | none => (none, none)
  | some "apt" =>
    ((match info.package with | some p => env.apt p | none => none), none)
  | some "flatpak" =>
    ((match info.flatpakId with | some a => env.flatpak a | none => none), none)
  | some "snap" =>
    ((match info.snapName with | some s => env.snap s | none => none), none)
  | some "deb" => (some "manual_check_required", none)
  | some "nodesource" =>
    (some ("Node.js " ++
           (match info.nsVersion with | some v => v | none => "None") ++
           ".x LTS"), none)
  | _ => (none, none)

/-- One entry of the updates map `check_all_sources` returns. -/
structure UpdateRecord where
  currentVersion : Option String
  latestVersion : String
  type : Option String
  extras : Option GithubExtras
  deriving DecidableEq, Repr

/-- The tail of the `check_all_sources` loop body for one entry: the
Python guard is `if latest_version and latest_version != current`, so
an empty or absent probed version, or one equal to the recorded
`current_version`, records nothing and leaves the entry untouched;
otherwise the update is recorded and the in-memory entry is refreshed
(`latest_version`, `last_checked`, merged extras). -/
def checkEntry (env : ProbeEnv) (ts : String) (info : SourceInfo) :
    Option UpdateRecord × SourceInfo :=
  let probed := probeSource env info
  match probed.1 with
  | some v =>
    if v ≠ "" ∧ some v ≠ info.currentVersion then
      let info' := { info with latestVersion := some v, lastChecked := some ts }
      let info'' :=
        match probed.2 with
        | some e =>
          { info' with downloadUrls := e.downloadUrls, releaseUrl := e.releaseUrl }
        | none => info'
      (some ⟨info.currentVersion, v, info.type, probed.2⟩, info'')
    else (none, info)
  | none => (none, info)

/-- The catalog in memory and the persisted `sources.json` content. -/
structure CheckerState where
  sources : List (String × SourceInfo)
  sourcesFile : Option (List (String × SourceInfo))
  deriving DecidableEq, Repr

/-- `SourceChecker.check_all_sources` followed by its unconditional
final `_save_sources()`: probe every entry in catalog order, collect
the update records, and persist the whole (possibly partly refreshed)
catalog. -/
def checkAllSources (env : ProbeEnv) (ts : String) (st : CheckerState) :
    List (String × UpdateRecord) × CheckerState :=
  let outcomes := st.sources.map (fun p => (p.1, checkEntry env ts p.2))
  let updates := outcomes.filterMap (fun q => (q.2.1).map (fun r => (q.1, r)))
  let newSources := outcomes.map (fun q => (q.1, q.2.2))
  (updates, ⟨newSources, some newSources⟩)

/-! ## Manifest generator (src/updater/manifest_generator.py) -/

/-- One value of the `updates` dict handed to `generate_manifest`
(shape produced by `check_all_sources`; the generator reads these four
keys, `download_urls` being optional). -/
structure UpdateInfo where
  type : Option String
  currentVersion : Option String
  latestVersion : Option String
  downloadUrls : Option (List (String × String))
  deriving DecidableEq, Repr

/-- One entry of the `script_updates` map: the rustdesk patch
descriptor, or the generic direct-download descriptor for deb-type
updates. -/
inductive ScriptUpdate where
  | githubPatch (file func : String) (version : Option String)
      (downloadUrls : List (String × String))
  | debPatch (file ty : String) (currentUrl : Option String)
      (checkRequired : Bool)
  deriving DecidableEq, Repr

/-- The fixed lookup table of `_get_current_download_url`. -/
def downloadUrlTable : List (String × String) :=
  [("vscode", "https://code.visualstudio.com/sha/download?build=stable&os=linux-deb-x64"),
   ("discord", "https://discord.com/api/download?platform=linux&format=deb"),
   ("zoom", "https://zoom.us/client/latest/zoom_amd64.deb"),
   ("teamviewer", "https://download.teamviewer.com/download/linux/teamviewer_amd64.deb"),
   ("gitkraken", "https://release.gitkraken.com/linux/gitkraken-amd64.deb")]

/-- `ManifestGenerator._get_current_download_url`. -/
def getCurrentDownloadUrl (appName : String) : Option String :=
  downloadUrlTable.lookup appName

/-- `ManifestGenerator._generate_script_updates`: a github-type update
keyed `rustdesk` emits the concrete rustdesk patch descriptor; any
deb-type update emits the generic descriptor; nothing else emits an
entry.  Insertion order of the dict is kept. -/
def generateScriptUpdates :
    List (String × UpdateInfo) → List (String × ScriptUpdate)
  | [] => []
  | (appName, info) :: rest =>
    if info.type = some "github" ∧ appName = "rustdesk" then
      ("rustdesk",
       .githubPatch "scripts/software_install.sh" "install_rustdesk"
         info.latestVersion (info.downloadUrls.getD [])) ::
      generateScriptUpdates rest
    else if info.type = some "deb" then
      (appName,
       .debPatch "scripts/software_install.sh" "download_url"
         (getCurrentDownloadUrl appName) true) ::
      generateScriptUpdates rest
    else generateScriptUpdates rest

/-- One record of the `actions_required` list. -/
structure ActionRecord where
  application : String
  type : Option String
  currentVersion : Option String
  newVersion : Option String
  actionType : String
  downloadUrls : Option (List (String × String))
  actionDetails : Option String
  deriving DecidableEq, Repr

/-- The per-update record built by `_determine_actions`. -/
def mkAction (appName : String) (info : UpdateInfo) : ActionRecord :=
  let base : ActionRecord :=
    ⟨appName, info.type, info.currentVersion, info.latestVersion, "update",
     none, none⟩
  if info.type = some "github" then
    match info.downloadUrls with
    | some urls =>
      { base with
        downloadUrls := some urls
        actionDetails := some "Update download URLs in installation script" }
    | none => base
  else if info.type = some "apt" then
    { base with
      actionDetails := some "APT package will auto-update via package manager" }
  else if info.type = some "flatpak" then
    { base with actionDetails := some "Flatpak will auto-update from Flathub" }
  else if info.type = some "deb" then
    { base with actionDetails := some "Update direct download URL if changed" }
  else if info.type = some "snap" then
    { base with actionDetails := some "Snap will auto-update" }
  else base

/-- `ManifestGenerator._determine_actions`. -/
def determineActions (updates : List (String × UpdateInfo)) :
    List ActionRecord :=
  updates.map (fun p => mkAction p.1 p.2)

/-- The manifest record assembled by `generate_manifest`. -/
structure Manifest where
  timestamp : String
  version : String
  updatesFound : Nat
  updates : List (String × UpdateInfo)
  sourceInformation : List (String × SourceInfo)
  actionsRequired : List ActionRecord
  scriptUpdates : List (String × ScriptUpdate)
  deriving DecidableEq, Repr

/-- `ManifestGenerator.generate_manifest(updates, source_info)`: the
assembled record (which `_save_manifest` then writes verbatim to
`current_manifest.json`, and `_generate_update_log` mirrors into log
artifacts). -/
def generateManifest (ts : String) (updates : List (String × UpdateInfo))
    (sourceInfo : List (String × SourceInfo)) : Manifest :=
  { timestamp := ts
    version := "3.0.0"
    updatesFound := updates.length
    updates := updates
    sourceInformation := sourceInfo
    actionsRequired := determineActions updates
    scriptUpdates := generateScriptUpdates updates }

/-- The state and return value `update_version` produces when the
bumped components come out as `x`, `y`, `z`: the rebuilt version
string, the refreshed release date, the incremented build number, both
persisted files. -/
def bumpedState (st : VMState) (x y z : Nat) (nowIso today : String) :
    VMState × String :=
  let v := toString x ++ "." ++ toString y ++ "." ++ toString z
  let ni := { st.current with
    version := v
    releaseDate := nowIso
    buildNumber := st.current.buildNumber + 1 }
  ({ current := ni
     versionFile := some ni
     changelogFile := some (updateChangelog st.changelogFile v today) }, v)

/-- An environment in which every network or subprocess probe fails. -/
def offlineEnv : ProbeEnv :=
  ⟨fun _ => none, fun _ => none, fun _ => none, fun _ => none⟩

/-- A nodesource catalog entry whose recorded current version already
matches what its (purely synthesized) probe will report. -/
def nodejsUpToDate : SourceInfo :=
  ⟨some "nodesource", none, none, none, none, none, none, some "20", none,
   some "Node.js 20.x LTS", none, none, [], none⟩

/-! ## Claim C2 -/

/-- The recoverable-error test is the conjunction of the two keyword
scans, written as a single boolean expression. -/
theorem isRecoverableError_eq_and (s e : String) :
    isRecoverableError s e =
      (stepKeywords.any (fun p => containsCI s p) &&
       recoverablePatterns.any (fun q => containsCI e q)) := by
  unfold isRecoverableError
  cases stepKeywords.any (fun p => containsCI s p) <;> simp

/-- C2: for every step label and error text, is_recoverable_error is
true exactly when the label case-insensitively contains one of
update/repository/gpg/key and the error text case-insensitively
contains one of the seven recoverable patterns; in particular the
NO_PUBKEY apt-update example is accepted and the Install Firefox
example is rejected. -/
theorem c2_recoverable_error_policy :
    (∀ stepName error : String,
        isRecoverableError stepName error = true ↔
          ((∃ p ∈ stepKeywords, containsCI stepName p = true) ∧
           (∃ q ∈ recoverablePatterns, containsCI error q = true))) ∧
    isRecoverableError "Update package lists"
        "apt update failed: NO_PUBKEY ABCDEF" = true ∧
    isRecoverableError "Install Firefox"
        "Unable to locate package firefox" = false := by
  refine ⟨fun stepName error => ?_, by decide, by decide⟩
  rw [isRecoverableError_eq_and]
  simp [List.any_eq_true]

/-! ## Claim C6 -/

/-- C6: an application id absent from the built-in step catalog makes
install_application return failure with the exact message
"Unknown application: name" and elapsed time "00:00", leaving the
tracker untouched and raising nothing. -/
theorem c6_unknown_application (stop : Nat → Bool) (w : World)
    (tr : TrackerState) (name : String) (t : Nat)
    (h : installationSteps.lookup name = none) :
    installApplication stop w tr name t =
      (tr, (false, some ("Unknown application: " ++ name), "00:00"), t) := by
  unfold installApplication
  rw [h]

/-- Witness for C6 at the retired spotify id, which has no catalog
entry. -/
theorem c6_unknown_application_witness :
    installationSteps.lookup "spotify" = none ∧
    installApplication (stopAt 0) smoothWorld initialTracker "spotify" 3 =
      (initialTracker,
       (false, some ("Unknown application: " ++ "spotify"), "00:00"), 3) :=
  ⟨by decide,
   c6_unknown_application (stopAt 0) smoothWorld initialTracker "spotify" 3
     (by decide)⟩

/-! ## Claim C9 -/

/-- C9: complete_app_installation has the unstated precondition of a
positive total: with total_apps = 0 the overall-progress line divides
by zero and raises, after the counters and app_results were already
written and before the step-record update; get_statistics instead
guards the zero total and reports success_rate 0 without raising. -/
theorem c9_zero_total_division (tr : TrackerState) (name : String)
    (success : Bool) (err : Option String) (now : Nat)
    (h : tr.totalApps = 0) :
    (completeAppInstallation tr name success err now).2 = true ∧
    sumCounters (completeAppInstallation tr name success err now).1 =
      sumCounters tr + 1 ∧
    (completeAppInstallation tr name success err now).1.overallProgress =
      tr.overallProgress ∧
    (completeAppInstallation tr name success err now).1.installationSteps =
      tr.installationSteps ∧
    (getStatistics tr).successRate = ⟨0, 0⟩ := by
  cases success with
  | true =>
    by_cases he : err = some "Already installed" <;>
      simp [completeAppInstallation, getStatistics, he, h, sumCounters] <;>
      omega
  | false =>
    simp [completeAppInstallation, getStatistics, h, sumCounters]
    omega

/-! ## Claims C7 and C10: version manager -/

/-- The changelog insertion point never exceeds the line count. -/
theorem headerEnd_le (l : List String) : headerEnd l ≤ l.length := by
  unfold headerEnd
  cases h : l.findIdx? startsWithHashes with
  | none => simp
  | some i =>
    simpa using Nat.le_of_lt (List.findIdx?_eq_some_iff_findIdx_eq.mp h).1

/-- Joining lines keeps each member as a contiguous substring. -/
theorem joinLines_data_infix {s : String} {l : List String} (h : s ∈ l) :
    ∃ pre post, (joinLines l).data = pre ++ s.data ++ post := by
  induction l with
  | nil => cases h
  | cons head tail ih =>
    rcases List.mem_cons.mp h with rfl | hmem
    · cases tail with
      | nil => exact ⟨[], [], by simp [joinLines]⟩
      | cons b bs =>
        refine ⟨[], ("\n" ++ joinLines (b :: bs)).data, ?_⟩
        show (s ++ "\n" ++ joinLines (b :: bs)).data = _
        simp
    · cases hmem' : tail with
      | nil => rw [hmem'] at hmem; cases hmem
      | cons b bs =>
        obtain ⟨pre, post, hpp⟩ := ih hmem
        rw [hmem'] at hpp
        refine ⟨(head ++ "\n").data ++ pre, post, ?_⟩
        show (head ++ "\n" ++ joinLines (b :: bs)).data = _
        simp [hpp]

/-- Whatever the existing changelog content, the update writes a file
that contains the freshly built section verbatim. -/
theorem updateChangelog_contains (old : Option String) (v d : String) :
    ∃ pre post, (updateChangelog old v d).data =
      pre ++ (changelogEntry v d).data ++ post := by
  cases old with
  | none =>
    refine ⟨changelogHeader.data, "\n".data, ?_⟩
    show (changelogHeader ++ changelogEntry v d ++ "\n").data = _
    simp
  | some content =>
    have hmem : changelogEntry v d ∈
        (splitStr '\n' content).insertIdx
          (headerEnd (splitStr '\n' content)) (changelogEntry v d) :=
      (List.mem_insertIdx (headerEnd_le _)).mpr (Or.inl rfl)
    obtain ⟨pre, post, hpp⟩ := joinLines_data_infix hmem
    exact ⟨pre, post, hpp⟩

/-- C7: update_version bumps exactly one numeric component with
precedence major over minor over patch, zeroing the lower components on
a major or minor bump, refreshes the release date, increments
build_number by one and persists the record; the version string is
rebuilt from the bumped integers. -/
theorem c7_update_version (st : VMState) (pa pb pc : String) (a b c : Nat)
    (nowIso today : String)
    (hsplit : splitStr '.' st.current.version = [pa, pb, pc])
    (ha : strToNat? pa = some a) (hb : strToNat? pb = some b)
    (hc : strToNat? pc = some c) :
    (∀ mi pt : Bool, updateVersion st true mi pt nowIso today =
        some (bumpedState st (a + 1) 0 0 nowIso today)) ∧
    (∀ pt : Bool, updateVersion st false true pt nowIso today =
        some (bumpedState st a (b + 1) 0 nowIso today)) ∧
    updateVersion st false false true nowIso today =
      some (bumpedState st a b (c + 1) nowIso today) := by
  refine ⟨fun mi pt => ?_, fun pt => ?_, ?_⟩ <;>
    simp [updateVersion, hsplit, ha, hb, hc, bumpedState]

/-- Witness for C7: the seeded 3.0.0 record yields 3.0.1 on a patch
bump and 4.0.0 on a major bump, build number up by exactly one. -/
theorem c7_update_version_witness :
    updateVersion ⟨⟨"3.0.0", "2025-01-01", 7, []⟩, none, none⟩ false false true
        "D" "T" =
      some (bumpedState ⟨⟨"3.0.0", "2025-01-01", 7, []⟩, none, none⟩ 3 0 1
        "D" "T") ∧
    updateVersion ⟨⟨"3.0.0", "2025-01-01", 7, []⟩, none, none⟩ true false true
        "D" "T" =
      some (bumpedState ⟨⟨"3.0.0", "2025-01-01", 7, []⟩, none, none⟩ 4 0 0
        "D" "T") ∧
    (bumpedState ⟨⟨"3.0.0", "2025-01-01", 7, []⟩, none, none⟩ 3 0 1
        "D" "T").2 = "3.0.1" ∧
    (bumpedState ⟨⟨"3.0.0", "2025-01-01", 7, []⟩, none, none⟩ 4 0 0
        "D" "T").2 = "4.0.0" ∧
    (bumpedState ⟨⟨"3.0.0", "2025-01-01", 7, []⟩, none, none⟩ 3 0 1
        "D" "T").1.current.buildNumber = 8 := by
  have h := c7_update_version ⟨⟨"3.0.0", "2025-01-01", 7, []⟩, none, none⟩
    "3" "0" "0" 3 0 0 "D" "T" (by decide) (by decide) (by decide) (by decide)
  exact ⟨h.2.2, h.1 false true, by decide, by decide, by decide⟩

/-- C10: with all three flags false, update_version leaves the
canonical version string unchanged yet still increments build_number,
refreshes the release date, persists the record, and prepends a
changelog section for the unchanged version. -/
theorem c10_update_version_noop_flags (st : VMState) (a b c : Nat)
    (nowIso today : String)
    (hver : st.current.version =
      toString a ++ "." ++ toString b ++ "." ++ toString c)
    (hsplit : splitStr '.' st.current.version =
      [toString a, toString b, toString c])
    (ha : strToNat? (toString a) = some a)
    (hb : strToNat? (toString b) = some b)
    (hc : strToNat? (toString c) = some c) :
    ∃ st' : VMState,
      updateVersion st false false false nowIso today =
        some (st', st.current.version) ∧
      st'.current.version = st.current.version ∧
      st'.current.buildNumber = st.current.buildNumber + 1 ∧
      st'.current.releaseDate = nowIso ∧
      st'.versionFile = some st'.current ∧
      st'.changelogFile =
        some (updateChangelog st.changelogFile st.current.version today) ∧
      (∃ pre post,
        (updateChangelog st.changelogFile st.current.version today).data =
          pre ++ (changelogEntry st.current.version today).data ++ post) := by
  refine ⟨(bumpedState st a b c nowIso today).1, ?_, ?_, ?_, ?_, ?_, ?_, ?_⟩
  · rw [show ((bumpedState st a b c nowIso today).1, st.current.version) =
        bumpedState st a b c nowIso today by
      simp [bumpedState, hver]]
    simp [updateVersion, hsplit, ha, hb, hc, bumpedState]
  · simp [bumpedState, hver]
  · simp [bumpedState]
  · simp [bumpedState]
  · simp [bumpedState]
  · simp [bumpedState, hver]
  · exact updateChangelog_contains st.changelogFile st.current.version today

/-- Witness for C10 at the canonical seed record 3.0.0. -/
theorem c10_update_version_noop_flags_witness :
    ∃ st' : VMState,
      updateVersion ⟨⟨"3.0.0", "2025-01-01", 7, []⟩, none, none⟩
          false false false "D" "T" =
        some (st', "3.0.0") ∧
      st'.current.version = "3.0.0" ∧
      st'.current.buildNumber = 8 ∧
      st'.current.releaseDate = "D" ∧
      st'.versionFile = some st'.current ∧
      st'.changelogFile = some (updateChangelog none "3.0.0" "T") ∧
      (∃ pre post, (updateChangelog none "3.0.0" "T").data =
        pre ++ (changelogEntry "3.0.0" "T").data ++ post) := by
  obtain ⟨st', h1, h2, h3, h4, h5, h6, h7⟩ :=
    c10_update_version_noop_flags
      ⟨⟨"3.0.0", "2025-01-01", 7, []⟩, none, none⟩ 3 0 0 "D" "T"
      (by decide) (by decide) (by decide) (by decide) (by decide)
  exact ⟨st', h1, h2, h3, h4, h5, h6, h7⟩

/-- Witness for C9: the freshly constructed tracker has total 0. -/
theorem c9_zero_total_division_witness :
    (completeAppInstallation initialTracker "vlc" true none 7).2 = true ∧
    sumCounters (completeAppInstallation initialTracker "vlc" true none 7).1 =
      sumCounters initialTracker + 1 ∧
    (completeAppInstallation initialTracker "vlc" true none 7).1.overallProgress =
      initialTracker.overallProgress ∧
    (completeAppInstallation initialTracker "vlc" true none 7).1.installationSteps =
      initialTracker.installationSteps ∧
    (getStatistics initialTracker).successRate = ⟨0, 0⟩ :=
  c9_zero_total_division initialTracker "vlc" true none 7 rfl

/-! ## Claim C1: source checker refresh policy -/

/-- C1 counterexample: for this entry the probe yields a version equal
to the recorded current_version, and check_all_sources then leaves the
entry's latest_version and last_checked exactly as they were (no
refresh), even though the full catalog is persisted. -/
theorem c1_refresh_counterexample :
    (probeSource offlineEnv nodejsUpToDate).1 = some "Node.js 20.x LTS" ∧
    nodejsUpToDate.currentVersion = some "Node.js 20.x LTS" ∧
    checkAllSources offlineEnv "2026-10-12T00:00:00"
        ⟨[("nodejs", nodejsUpToDate)], none⟩ =
      ([], ⟨[("nodejs", nodejsUpToDate)],
            some [("nodejs", nodejsUpToDate)]⟩) ∧
    nodejsUpToDate.lastChecked = none ∧
    nodejsUpToDate.latestVersion = none := by
  decide

/-- C1 (amended): after the full pass the entire catalog is persisted
and every entry is the pointwise outcome of its probe; an entry's
latest_version/last_checked are refreshed (and extras merged) exactly
when the probe yields a non-empty version different from the recorded
current_version — the same condition under which an update is
recorded; otherwise the entry is left untouched. -/
theorem c1_refresh_amended (env : ProbeEnv) (ts : String)
    (st : CheckerState) :
    ((checkAllSources env ts st).2.sourcesFile =
      some (checkAllSources env ts st).2.sources) ∧
    ((checkAllSources env ts st).2.sources =
      st.sources.map (fun p => (p.1, (checkEntry env ts p.2).2))) ∧
    ((checkAllSources env ts st).1 =
      st.sources.filterMap
        (fun p => ((checkEntry env ts p.2).1).map (fun r => (p.1, r)))) ∧
    (∀ (info : SourceInfo) (v : String) (ex : Option GithubExtras),
      probeSource env info = (some v, ex) → v ≠ "" →
      some v ≠ info.currentVersion →
        (checkEntry env ts info).2.latestVersion = some v ∧
        (checkEntry env ts info).2.lastChecked = some ts ∧
        (∀ e, ex = some e →
          (checkEntry env ts info).2.downloadUrls = e.downloadUrls ∧
          (checkEntry env ts info).2.releaseUrl = e.releaseUrl) ∧
        (checkEntry env ts info).1 =
          some ⟨info.currentVersion, v, info.type, ex⟩) ∧
    (∀ (info : SourceInfo) (v : String) (ex : Option GithubExtras),
      probeSource env info = (some v, ex) →
      (v = "" ∨ some v = info.currentVersion) →
        checkEntry env ts info = (none, info)) ∧
    (∀ info : SourceInfo, (probeSource env info).1 = none →
        checkEntry env ts info = (none, info)) := by
  refine ⟨rfl, ?_, ?_, ?_, ?_, ?_⟩
  · simp [checkAllSources, List.map_map]
  · simp [checkAllSources, List.filterMap_map]
    rfl
  · intro info v ex hp hv hne
    rcases ex with _ | e <;>
      simp [checkEntry, hp, hv, hne]
  · intro info v ex hp hcond
    rcases hcond with rfl | heq
    · simp [checkEntry, hp]
    · simp [checkEntry, hp, heq.symm]
  · intro info hp
    have h2 : probeSource env info = (none, (probeSource env info).2) := by
      rw [← hp]
    rw [checkEntry, h2]

/-- Witness for C1's amended theorem: a github source with a new
release is refreshed and its extras merged, and the catalog file
receives the final in-memory catalog. -/
theorem c1_refresh_amended_witness :
    (checkEntry
        ⟨fun _ => some ⟨"1.4.2", [("rustdesk.deb", "u")], some "rel"⟩,
         fun _ => none, fun _ => none, fun _ => none⟩
        "2026-10-12"
        ⟨some "github", some "rustdesk/rustdesk", none, none, none, none,
         none, none, none, some "1.2.3", none, none, [], none⟩).2.latestVersion =
      some "1.4.2" ∧
    (checkEntry
        ⟨fun _ => some ⟨"1.4.2", [("rustdesk.deb", "u")], some "rel"⟩,
         fun _ => none, fun _ => none, fun _ => none⟩
        "2026-10-12"
        ⟨some "github", some "rustdesk/rustdesk", none, none, none, none,
         none, none, none, some "1.2.3", none, none, [], none⟩).2.lastChecked =
      some "2026-10-12" ∧
    (checkEntry
        ⟨fun _ => some ⟨"1.4.2", [("rustdesk.deb", "u")], some "rel"⟩,
         fun _ => none, fun _ => none, fun _ => none⟩
        "2026-10-12"
        ⟨some "github", some "rustdesk/rustdesk", none, none, none, none,
         none, none, none, some "1.2.3", none, none, [], none⟩).2.downloadUrls =
      [("rustdesk.deb", "u")] := by
  have h := c1_refresh_amended
    ⟨fun _ => some ⟨"1.4.2", [("rustdesk.deb", "u")], some "rel"⟩,
     fun _ => none, fun _ => none, fun _ => none⟩
    "2026-10-12" ⟨[], none⟩
  obtain ⟨h1, h2, hex, h4⟩ := h.2.2.2.1
    ⟨some "github", some "rustdesk/rustdesk", none, none, none, none,
     none, none, none, some "1.2.3", none, none, [], none⟩
    "1.4.2" (some ⟨[("rustdesk.deb", "u")], some "rel"⟩)
    (by decide) (by decide) (by decide)
  exact ⟨h1, h2, (hex ⟨[("rustdesk.deb", "u")], some "rel"⟩ rfl).1⟩

/-! ## Claim C8: script-update descriptors -/

/-- Keys of the generated script_updates map come from the updates map,
so a key absent there is absent from the output. -/
theorem generateScriptUpdates_lookup_none {k : String} :
    ∀ {l : List (String × UpdateInfo)}, k ∉ l.map Prod.fst →
      (generateScriptUpdates l).lookup k = none := by
  intro l h
  induction l with
  | nil => rfl
  | cons p rest ih =>
    obtain ⟨app, info⟩ := p
    simp only [List.map_cons, List.mem_cons, not_or] at h
    obtain ⟨hne, hrest⟩ := h
    unfold generateScriptUpdates
    by_cases h1 : info.type = some "github" ∧ app = "rustdesk"
    · rw [if_pos h1]
      have hb : (k == "rustdesk") = false :=
        beq_eq_false_iff_ne.mpr (h1.2 ▸ hne)
      simp [List.lookup_cons, hb, ih hrest]
    · rw [if_neg h1]
      by_cases h2 : info.type = some "deb"
      · rw [if_pos h2]
        have hb : (k == app) = false := beq_eq_false_iff_ne.mpr hne
        simp [List.lookup_cons, hb, ih hrest]
      · rw [if_neg h2]
        exact ih hrest

/-- A github-type update keyed rustdesk yields the rustdesk patch
descriptor. -/
theorem lookup_rustdesk_descriptor :
    ∀ {updates : List (String × UpdateInfo)},
      (updates.map Prod.fst).Nodup →
      ∀ {info : UpdateInfo}, ("rustdesk", info) ∈ updates →
        info.type = some "github" →
        (generateScriptUpdates updates).lookup "rustdesk" =
          some (.githubPatch "scripts/software_install.sh" "install_rustdesk"
            info.latestVersion (info.downloadUrls.getD [])) := by
  intro updates hnd info hmem hty
  induction updates with
  | nil => cases hmem
  | cons p rest ih =>
    obtain ⟨app, i⟩ := p
    simp only [List.map_cons, List.nodup_cons] at hnd
    obtain ⟨hni, hnd'⟩ := hnd
    rcases List.mem_cons.mp hmem with heq | hmem'
    · injection heq with h1 h2
      subst h2
      unfold generateScriptUpdates
      rw [if_pos ⟨hty, h1.symm⟩]
      simp [List.lookup]
    · have hkey : "rustdesk" ∈ rest.map Prod.fst :=
        List.mem_map_of_mem Prod.fst hmem'
      have happ : app ≠ "rustdesk" := fun h => hni (h ▸ hkey)
      unfold generateScriptUpdates
      by_cases h1 : i.type = some "github" ∧ app = "rustdesk"
      · exact absurd h1.2 happ
      · rw [if_neg h1]
        by_cases h2 : i.type = some "deb"
        · rw [if_pos h2]
          have hb : ("rustdesk" == app) = false :=
            beq_eq_false_iff_ne.mpr (Ne.symm happ)
          simp only [List.lookup_cons, hb]
          exact ih hnd' hmem'
        · rw [if_neg h2]
          exact ih hnd' hmem'

/-- A deb-type update emits the generic direct-download descriptor with
the fixed lookup-table URL for its key. -/
theorem lookup_deb_descriptor :
    ∀ {updates : List (String × UpdateInfo)},
      (updates.map Prod.fst).Nodup →
      ∀ {k : String} {info : UpdateInfo}, (k, info) ∈ updates →
        info.type = some "deb" →
        (generateScriptUpdates updates).lookup k =
          some (.debPatch "scripts/software_install.sh" "download_url"
            (getCurrentDownloadUrl k) true) := by
  intro updates hnd k info hmem hty
  induction updates with
  | nil => cases hmem
  | cons p rest ih =>
    obtain ⟨app, i⟩ := p
    simp only [List.map_cons, List.nodup_cons] at hnd
    obtain ⟨hni, hnd'⟩ := hnd
    rcases List.mem_cons.mp hmem with heq | hmem'
    · injection heq with h1 h2
      subst h2
      unfold generateScriptUpdates
      have hng : ¬(info.type = some "github" ∧ app = "rustdesk") := by
        rintro ⟨hg, -⟩
        rw [hty] at hg
        exact absurd hg (by decide)
      rw [if_neg hng, if_pos hty, h1]
      simp
    · have hkey : k ∈ rest.map Prod.fst := List.mem_map_of_mem Prod.fst hmem'
      have happ : app ≠ k := fun h => hni (h ▸ hkey)
      unfold generateScriptUpdates
      by_cases h1 : i.type = some "github" ∧ app = "rustdesk"
      · rw [if_pos h1]
        have hb : (k == "rustdesk") = false :=
          beq_eq_false_iff_ne.mpr (fun h => happ (h1.2.trans h.symm))
        simp only [List.lookup_cons, hb]
        exact ih hnd' hmem'
      · rw [if_neg h1]
        by_cases h2 : i.type = some "deb"
        · rw [if_pos h2]
          have hb : (k == app) = false :=
            beq_eq_false_iff_ne.mpr (Ne.symm happ)
          simp only [List.lookup_cons, hb]
          exact ih hnd' hmem'
        · rw [if_neg h2]
          exact ih hnd' hmem'

/-- An update of any type other than github or deb contributes no
script_updates entry for its key. -/
theorem lookup_other_none :
    ∀ {updates : List (String × UpdateInfo)},
      (updates.map Prod.fst).Nodup →
      ∀ {k : String} {info : UpdateInfo}, (k, info) ∈ updates →
        info.type ≠ some "github" → info.type ≠ some "deb" →
        (generateScriptUpdates updates).lookup k = none := by
  intro updates hnd k info hmem hg hd
  induction updates with
  | nil => cases hmem
  | cons p rest ih =>
    obtain ⟨app, i⟩ := p
    simp only [List.map_cons, List.nodup_cons] at hnd
    obtain ⟨hni, hnd'⟩ := hnd
    rcases List.mem_cons.mp hmem with heq | hmem'
    · injection heq with h1 h2
      subst h2
      unfold generateScriptUpdates
      have hng : ¬(info.type = some "github" ∧ app = "rustdesk") := by
        rintro ⟨hgg, -⟩
        exact hg hgg
      rw [if_neg hng, if_neg hd, h1]
      exact generateScriptUpdates_lookup_none hni
    · have hkey : k ∈ rest.map Prod.fst := List.mem_map_of_mem Prod.fst hmem'
      have happ : app ≠ k := fun h => hni (h ▸ hkey)
      unfold generateScriptUpdates
      by_cases h1 : i.type = some "github" ∧ app = "rustdesk"
      · rw [if_pos h1]
        have hb : (k == "rustdesk") = false :=
          beq_eq_false_iff_ne.mpr (fun h => happ (h1.2.trans h.symm))
        simp only [List.lookup_cons, hb]
        exact ih hnd' hmem'
      · rw [if_neg h1]
        by_cases h2 : i.type = some "deb"
        · rw [if_pos h2]
          have hb : (k == app) = false :=
            beq_eq_false_iff_ne.mpr (Ne.symm happ)
          simp only [List.lookup_cons, hb]
          exact ih hnd' hmem'
        · rw [if_neg h2]
          exact ih hnd' hmem'

/-- C8: in the manifest generated for any updates map, a github-type
update keyed rustdesk produces the rustdesk script_updates entry
carrying the update's latest version and download URLs; a deb-type
update keyed vscode produces the vscode entry whose current_url is the
fixed lookup-table URL for vscode; and an update of any other type
produces no script_updates entry for its key. -/
theorem c8_script_updates (updates : List (String × UpdateInfo))
    (ts : String) (sourceInfo : List (String × SourceInfo))
    (hnd : (updates.map Prod.fst).Nodup) :
    (∀ info : UpdateInfo, ("rustdesk", info) ∈ updates →
      info.type = some "github" →
      ((generateManifest ts updates sourceInfo).scriptUpdates).lookup
          "rustdesk" =
        some (.githubPatch "scripts/software_install.sh" "install_rustdesk"
          info.latestVersion (info.downloadUrls.getD []))) ∧
    (∀ info : UpdateInfo, ("vscode", info) ∈ updates →
      info.type = some "deb" →
      ((generateManifest ts updates sourceInfo).scriptUpdates).lookup
          "vscode" =
        some (.debPatch "scripts/software_install.sh" "download_url"
          (some "https://code.visualstudio.com/sha/download?build=stable&os=linux-deb-x64")
          true)) ∧
    (∀ (k : String) (info : UpdateInfo), (k, info) ∈ updates →
      info.type ≠ some "github" → info.type ≠ some "deb" →
      ((generateManifest ts updates sourceInfo).scriptUpdates).lookup k =
        none) := by
  refine ⟨fun info hmem hty => ?_, fun info hmem hty => ?_,
    fun k info hmem hg hd => ?_⟩
  · exact lookup_rustdesk_descriptor hnd hmem hty
  · have h := lookup_deb_descriptor hnd hmem hty
    rwa [show getCurrentDownloadUrl "vscode" =
      some "https://code.visualstudio.com/sha/download?build=stable&os=linux-deb-x64"
      from by decide] at h
  · exact lookup_other_none hnd hmem hg hd

/-- Witness for C8 on a three-entry updates map. -/
theorem c8_script_updates_witness :
    ((generateManifest "TS"
        [("rustdesk", ⟨some "github", some "1.2.3", some "1.4.2",
           some [("rustdesk.deb", "u")]⟩),
         ("vscode", ⟨some "deb", none, some "manual_check_required", none⟩),
         ("vlc", ⟨some "apt", some "3.0", some "3.1", none⟩)] []).scriptUpdates).lookup
        "rustdesk" =
      some (.githubPatch "scripts/software_install.sh" "install_rustdesk"
        (some "1.4.2") [("rustdesk.deb", "u")]) ∧
    ((generateManifest "TS"
        [("rustdesk", ⟨some "github", some "1.2.3", some "1.4.2",
           some [("rustdesk.deb", "u")]⟩),
         ("vscode", ⟨some "deb", none, some "manual_check_required", none⟩),
         ("vlc", ⟨some "apt", some "3.0", some "3.1", none⟩)] []).scriptUpdates).lookup
        "vscode" =
      some (.debPatch "scripts/software_install.sh" "download_url"
        (some "https://code.visualstudio.com/sha/download?build=stable&os=linux-deb-x64")
        true) ∧
    ((generateManifest "TS"
        [("rustdesk", ⟨some "github", some "1.2.3", some "1.4.2",
           some [("rustdesk.deb", "u")]⟩),
         ("vscode", ⟨some "deb", none, some "manual_check_required", none⟩),
         ("vlc", ⟨some "apt", some "3.0", some "3.1", none⟩)] []).scriptUpdates).lookup
        "vlc" = none := by
  have h := c8_script_updates
    [("rustdesk", ⟨some "github", some "1.2.3", some "1.4.2",
       some [("rustdesk.deb", "u")]⟩),
     ("vscode", ⟨some "deb", none, some "manual_check_required", none⟩),
     ("vlc", ⟨some "apt", some "3.0", some "3.1", none⟩)] "TS" []
    (by decide)
  exact ⟨h.1 ⟨some "github", some "1.2.3", some "1.4.2",
        some [("rustdesk.deb", "u")]⟩ (by simp) rfl,
    h.2.1 ⟨some "deb", none, some "manual_check_required", none⟩ (by simp) rfl,
    h.2.2 "vlc" ⟨some "apt", some "3.0", some "3.1", none⟩ (by simp)
      (by decide) (by decide)⟩

/-! ## Run-loop lemmas shared by the installation-run claims -/

/-- Completing an application always increments exactly one counter and
leaves the total alone; the call raises exactly when the total is
zero. -/
theorem completeApp_spec (tr : TrackerState) (name : String)
    (success : Bool) (err : Option String) (now : Nat) :
    (completeAppInstallation tr name success err now).2 =
      decide (tr.totalApps = 0) ∧
    (completeAppInstallation tr name success err now).1.totalApps =
      tr.totalApps ∧
    sumCounters (completeAppInstallation tr name success err now).1 =
      sumCounters tr + 1 := by
  cases success with
  | true =>
    by_cases he : err = some "Already installed" <;>
      by_cases h0 : tr.totalApps = 0 <;>
      simp [completeAppInstallation, he, h0, sumCounters] <;> omega
  | false =>
    by_cases h0 : tr.totalApps = 0 <;>
      simp [completeAppInstallation, h0, sumCounters] <;> omega

/-- Completing a plain success with a positive total: no raise, the
completed counter up by one, the other counters and the total as they
were, and the overall percentage recomputed from the new processed
count. -/
theorem completeApp_success_fields (tr : TrackerState) (name : String)
    (now : Nat) (h0 : ¬tr.totalApps = 0) :
    (completeAppInstallation tr name true none now).2 = false ∧
    (completeAppInstallation tr name true none now).1.completedApps =
      tr.completedApps + 1 ∧
    (completeAppInstallation tr name true none now).1.failedApps =
      tr.failedApps ∧
    (completeAppInstallation tr name true none now).1.alreadyInstalledApps =
      tr.alreadyInstalledApps ∧
    (completeAppInstallation tr name true none now).1.totalApps =
      tr.totalApps ∧
    (completeAppInstallation tr name true none now).1.overallProgress =
      pyProgress (tr.completedApps + 1 + tr.failedApps +
        tr.alreadyInstalledApps) tr.totalApps := by
  simp [completeAppInstallation, h0]

/-- The step loop only ever touches the tracker through
update_app_step, so the four counters survive it. -/
theorem installStepsLoop_counters (stop : Nat → Bool) (w : World)
    (app : String) :
    ∀ (cmds : List (String × String)) (n i t0 t : Nat) (tr : TrackerState),
      (installStepsLoop stop w tr app cmds n i t0 t).1.totalApps =
        tr.totalApps ∧
      (installStepsLoop stop w tr app cmds n i t0 t).1.completedApps =
        tr.completedApps ∧
      (installStepsLoop stop w tr app cmds n i t0 t).1.failedApps =
        tr.failedApps ∧
      (installStepsLoop stop w tr app cmds n i t0 t).1.alreadyInstalledApps =
        tr.alreadyInstalledApps := by
  intro cmds
  induction cmds with
  | nil => intro n i t0 t tr; simp [installStepsLoop]
  | cons hd rest ih =>
    obtain ⟨stepName, command⟩ := hd
    intro n i t0 t tr
    by_cases hs : stop t = true
    · simp [installStepsLoop, hs]
    · rcases hcmd : w.runCommand command with ⟨ok, err⟩
      cases ok with
      | true => simpa [installStepsLoop, hs, hcmd] using ih n (i + 1) t0 (t + 1) _
      | false =>
        by_cases hrec : isRecoverableError stepName err = true
        · simpa [installStepsLoop, hs, hcmd, hrec] using
            ih n (i + 1) t0 (t + 1) _
        · simp [installStepsLoop, hs, hcmd, hrec, updateAppStep]

/-- install_application also preserves the counters. -/
theorem installApplication_counters (stop : Nat → Bool) (w : World)
    (tr : TrackerState) (app : String) (t : Nat) :
    (installApplication stop w tr app t).1.totalApps = tr.totalApps ∧
    (installApplication stop w tr app t).1.completedApps =
      tr.completedApps ∧
    (installApplication stop w tr app t).1.failedApps = tr.failedApps ∧
    (installApplication stop w tr app t).1.alreadyInstalledApps =
      tr.alreadyInstalledApps := by
  unfold installApplication
  cases h : installationSteps.lookup app with
  | none => simp
  | some cmds => exact installStepsLoop_counters stop w app cmds _ 0 t t tr

/-- A step-failure message always carries the literal " failed: "
separator, which the stop message does not contain. -/
theorem failedMsg_ne_stop (l e : String) :
    l ++ " failed: " ++ e ≠ "Installation stopped by user" := by
  intro h
  have hd := congrArg String.data h
  simp only [String.data_append] at hd
  have hinf : (" failed: ").data <:+: ("Installation stopped by user").data :=
    ⟨l.data, e.data, hd⟩
  exact absurd hinf (by decide)

/-- The unknown-application message never coincides with the stop
message. -/
theorem unknownMsg_ne_stop (name : String) :
    "Unknown application: " ++ name ≠ "Installation stopped by user" := by
  intro h
  have hd := congrArg String.data h
  simp only [String.data_append] at hd
  have hpre : ("Unknown application: ").data <+:
      ("Installation stopped by user").data := ⟨name.data, hd⟩
  exact absurd hpre (by decide)

/-- The stop message can only come out of the step loop if some read of
the stop flag strictly before the returned read counter was true. -/
theorem installStepsLoop_stop_source (stop : Nat → Bool) (w : World)
    (app : String) :
    ∀ (cmds : List (String × String)) (n i t0 t : Nat) (tr : TrackerState),
      (installStepsLoop stop w tr app cmds n i t0 t).2.1.2.1 =
        some "Installation stopped by user" →
      ∃ u, t ≤ u ∧ u < (installStepsLoop stop w tr app cmds n i t0 t).2.2 ∧
        stop u = true := by
  intro cmds
  induction cmds with
  | nil => intro n i t0 t tr h; simp [installStepsLoop] at h
  | cons hd rest ih =>
    obtain ⟨stepName, command⟩ := hd
    intro n i t0 t tr h
    by_cases hs : stop t = true
    · refine ⟨t, Nat.le_refl t, ?_, hs⟩
      simp [installStepsLoop, hs]
    · rcases hcmd : w.runCommand command with ⟨ok, err⟩
      cases ok with
      | true =>
        rw [installStepsLoop] at h ⊢
        simp only [hs, if_false, hcmd] at h ⊢
        obtain ⟨u, hu1, hu2, hu3⟩ := ih n (i + 1) t0 (t + 1) _ h
        exact ⟨u, Nat.le_trans (Nat.le_succ t) hu1, hu2, hu3⟩
      | false =>
        by_cases hrec : isRecoverableError stepName err = true
        · rw [installStepsLoop] at h ⊢
          simp only [hs, if_false, hcmd, hrec] at h ⊢
          obtain ⟨u, hu1, hu2, hu3⟩ := ih n (i + 1) t0 (t + 1) _ h
          exact ⟨u, Nat.le_trans (Nat.le_succ t) hu1, hu2, hu3⟩
        · rw [installStepsLoop] at h
          simp only [hs, if_false, hcmd, hrec] at h
          exact absurd (Option.some.inj h) (failedMsg_ne_stop stepName err)

/-- Same fact lifted through install_application. -/
theorem installApplication_stop_source (stop : Nat → Bool) (w : World)
    (tr : TrackerState) (app : String) (t : Nat) :
    (installApplication stop w tr app t).2.1.2.1 =
      some "Installation stopped by user" →
    ∃ u, t ≤ u ∧ u < (installApplication stop w tr app t).2.2 ∧
      stop u = true := by
  unfold installApplication
  cases h : installationSteps.lookup app with
  | none =>
    intro hc
    simp only at hc
    exact absurd (Option.some.inj hc) (unknownMsg_ne_stop app)
  | some cmds => exact installStepsLoop_stop_source stop w app cmds _ 0 t t tr

/-- A true stop flag at the loop head ends the run loop at once. -/
theorem runLoop_stop_break (stop : Nat → Bool) (w : World)
    (apps : List String) (t : Nat) (s : RunState) (h : stop t = true) :
    runLoop stop w apps t s = s := by
  cases apps <;> simp [runLoop, h]

/-- Invariants of the per-application loop, relative to an arbitrary
starting accumulator: the tracker total is never changed; counters
track the recorded results one-for-one; the recorded names extend the
accumulator by a prefix of the remaining selection, in order; and every
newly recorded result carries one of the three produced statuses. -/
theorem runLoop_main (stop : Nat → Bool) (w : World) :
    ∀ (apps : List String) (t : Nat) (s : RunState),
      (runLoop stop w apps t s).tracker.totalApps = s.tracker.totalApps ∧
      (sumCounters s.tracker = s.results.length →
        sumCounters (runLoop stop w apps t s).tracker =
          (runLoop stop w apps t s).results.length) ∧
      (∃ n, n ≤ apps.length ∧
        (runLoop stop w apps t s).results.map (fun r => r.name) =
          s.results.map (fun r => r.name) ++ apps.take n ∧
        (runLoop stop w apps t s).results.length = s.results.length + n) ∧
      (∀ r ∈ (runLoop stop w apps t s).results,
        r ∈ s.results ∨ r.status = "success" ∨ r.status = "failed" ∨
          r.status = "already_installed") := by
  intro apps
  induction apps with
  | nil =>
    intro t s
    exact ⟨rfl, fun h => h, ⟨0, Nat.le_refl 0, by simp [runLoop],
      by simp [runLoop]⟩, fun r hr => Or.inl hr⟩
  | cons app rest ih =>
    intro t s
    by_cases h1 : stop t = true
    · rw [runLoop, if_pos h1]
      exact ⟨rfl, fun h => h, ⟨0, Nat.zero_le _, by simp, by simp⟩,
        fun r hr => Or.inl hr⟩
    · by_cases h2 : stop (t + 1) = true
      · rw [runLoop, if_neg h1, if_pos h2]
        exact ⟨rfl, fun h => h, ⟨0, Nat.zero_le _, by simp, by simp⟩,
          fun r hr => Or.inl hr⟩
      · have htr0tot :
            (startAppInstallation s.tracker app (t + 2)
              (w.clock (t + 2))).totalApps = s.tracker.totalApps := rfl
        have htr0sum :
            sumCounters (startAppInstallation s.tracker app (t + 2)
              (w.clock (t + 2))) = sumCounters s.tracker := rfl
        by_cases hinst : w.isInstalled app = true
        · rcases hca : completeAppInstallation
              (startAppInstallation s.tracker app (t + 2) (w.clock (t + 2)))
              app true (some "Already installed") (t + 2) with ⟨tr1, raised⟩
          have hspec := completeApp_spec
            (startAppInstallation s.tracker app (t + 2) (w.clock (t + 2)))
            app true (some "Already installed") (t + 2)
          rw [hca] at hspec
          have htot1 : tr1.totalApps = s.tracker.totalApps :=
            hspec.2.1.trans htr0tot
          have hsum1 : sumCounters tr1 = sumCounters s.tracker + 1 := by
            rw [hspec.2.2, htr0sum]
          cases raised with
          | true =>
            have hout : runLoop stop w (app :: rest) t s =
                ⟨tr1, s.results ++
                  [⟨app, "already_installed", "00:00", none,
                    "Application is already installed"⟩], s.trace, true⟩ := by
              rw [runLoop, if_neg h1, if_neg h2]
              simp only [hinst, if_true, hca]
            rw [hout]
            refine ⟨htot1, fun h => ?_, ⟨1, Nat.succ_le_succ (Nat.zero_le _),
              by simp, by simp⟩, fun r hr => ?_⟩
            · simp only [List.length_append, List.length_cons,
                List.length_nil]
              rw [hsum1, h]
            · rcases List.mem_append.mp hr with hl | hr2
              · exact Or.inl hl
              · rcases List.mem_singleton.mp hr2 with rfl
                exact Or.inr (Or.inr (Or.inr rfl))
          | false =>
            have hout : runLoop stop w (app :: rest) t s =
                runLoop stop w rest (t + 2)
                  ⟨tr1, s.results ++
                    [⟨app, "already_installed", "00:00", none,
                      "Application is already installed"⟩],
                   s.trace ++ [tr1.overallProgress], false⟩ := by
              rw [runLoop, if_neg h1, if_neg h2]
              simp only [hinst, if_true, hca]
              rfl
            rw [hout]
            obtain ⟨ihtot, ihsum, ⟨n, hn, hmap, hlen⟩, ihmem⟩ :=
              ih (t + 2)
                ⟨tr1, s.results ++
                  [⟨app, "already_installed", "00:00", none,
                    "Application is already installed"⟩],
                 s.trace ++ [tr1.overallProgress], false⟩
            refine ⟨ihtot.trans htot1, fun h => ?_,
              ⟨n + 1, Nat.succ_le_succ hn, ?_, ?_⟩, fun r hr => ?_⟩
            · apply ihsum
              simp only [List.length_append, List.length_cons,
                List.length_nil]
              rw [hsum1, h]
            · rw [hmap]
              simp [List.take_succ_cons]
            · rw [hlen]
              simp only [List.length_append, List.length_cons,
                List.length_nil, List.length_take]
              omega
            · rcases ihmem r hr with hmem' | hgood
              · rcases List.mem_append.mp hmem' with hl | hr2
                · exact Or.inl hl
                · rcases List.mem_singleton.mp hr2 with rfl
                  exact Or.inr (Or.inr (Or.inr rfl))
              · exact Or.inr hgood
        · rcases hia : installApplication stop w
              (startAppInstallation s.tracker app (t + 2) (w.clock (t + 2)))
              app (t + 2) with ⟨tr1, out, t'⟩
          obtain ⟨ok, err, timeStr⟩ := out
          have hic := installApplication_counters stop w
            (startAppInstallation s.tracker app (t + 2) (w.clock (t + 2)))
            app (t + 2)
          rw [hia] at hic
          have htot1 : tr1.totalApps = s.tracker.totalApps :=
            hic.1.trans htr0tot
          have hsum1 : sumCounters tr1 = sumCounters s.tracker := by
            unfold sumCounters
            rw [hic.2.1, hic.2.2.1, hic.2.2.2]
            rfl
          rcases hca : completeAppInstallation tr1 app ok
              (if ok then none else err) t' with ⟨tr2, raised⟩
          have hspec := completeApp_spec tr1 app ok
            (if ok then none else err) t'
          rw [hca] at hspec
          have htot2 : tr2.totalApps = s.tracker.totalApps :=
            hspec.2.1.trans htot1
          have hsum2 : sumCounters tr2 = sumCounters s.tracker + 1 := by
            rw [hspec.2.2, hsum1]
          have hstat : (if ok then "success" else "failed") = "success" ∨
              (if ok then "success" else "failed") = "failed" ∨
              (if ok then "success" else "failed") = "already_installed" := by
            cases ok with
            | true => exact Or.inl rfl
            | false => exact Or.inr (Or.inl rfl)
          cases raised with
          | true =>
            have hout : runLoop stop w (app :: rest) t s =
                ⟨tr2, s.results ++
                  [⟨app, if ok then "success" else "failed", timeStr,
                    if ok then none else err,
                    if ok then "Installation completed successfully"
                    else "Installation failed"⟩], s.trace, true⟩ := by
              rw [runLoop, if_neg h1, if_neg h2]
              simp only [hinst, hia, hca]
              rfl
            rw [hout]
            refine ⟨htot2, fun h => ?_, ⟨1, Nat.succ_le_succ (Nat.zero_le _),
              by simp, by simp⟩, fun r hr => ?_⟩
            · simp only [List.length_append, List.length_cons,
                List.length_nil]
              rw [hsum2, h]
            · rcases List.mem_append.mp hr with hl | hr2
              · exact Or.inl hl
              · rcases List.mem_singleton.mp hr2 with rfl
                exact Or.inr hstat
          | false =>
            have hout : runLoop stop w (app :: rest) t s =
                runLoop stop w rest t'
                  ⟨tr2, s.results ++
                    [⟨app, if ok then "success" else "failed", timeStr,
                      if ok then none else err,
                      if ok then "Installation completed successfully"
                      else "Installation failed"⟩],
                   s.trace ++ [tr2.overallProgress], false⟩ := by
              rw [runLoop, if_neg h1, if_neg h2]
              simp only [hinst, hia, hca]
              rfl
            rw [hout]
            obtain ⟨ihtot, ihsum, ⟨n, hn, hmap, hlen⟩, ihmem⟩ :=
              ih t'
                ⟨tr2, s.results ++
                  [⟨app, if ok then "success" else "failed", timeStr,
                    if ok then none else err,
                    if ok then "Installation completed successfully"
                    else "Installation failed"⟩],
                 s.trace ++ [tr2.overallProgress], false⟩
            refine ⟨ihtot.trans htot2, fun h => ?_,
              ⟨n + 1, Nat.succ_le_succ hn, ?_, ?_⟩, fun r hr => ?_⟩
            · apply ihsum
              simp only [List.length_append, List.length_cons,
                List.length_nil]
              rw [hsum2, h]
            · rw [hmap]
              simp [List.take_succ_cons]
            · rw [hlen]
              simp only [List.length_append, List.length_cons,
                List.length_nil, List.length_take]
              omega
            · rcases ihmem r hr with hmem' | hgood
              · rcases List.mem_append.mp hmem' with hl | hr2
                · exact Or.inl hl
                · rcases List.mem_singleton.mp hr2 with rfl
                  exact Or.inr hstat
              · exact Or.inr hgood

/-- If a stop-message result sits in an accumulator extended by one
record, while the old accumulator holds no stop-message result, then it
is that last record. -/
theorem append_stop_last {rs : List AppResult} {x r : AppResult} {j : Nat}
    (hno : ∀ r' ∈ rs, r'.error ≠ some "Installation stopped by user")
    (hj : (rs ++ [x])[j]? = some r)
    (herr : r.error = some "Installation stopped by user") :
    r = x ∧ j + 1 = (rs ++ [x]).length := by
  have hlt : j < rs.length + 1 := by
    obtain ⟨h, -⟩ := List.getElem?_eq_some_iff.mp hj
    simpa using h
  rcases Nat.lt_or_ge j rs.length with hl | hg
  · rw [List.getElem?_append_left hl] at hj
    exact absurd herr (hno r (List.getElem?_mem hj))
  · have hj' : j = rs.length := by omega
    subst hj'
    rw [List.getElem?_concat_length] at hj
    refine ⟨(Option.some.inj hj).symm, ?_⟩
    simp

/-- Once a stop request is visible (monotone stop signal), a
stop-message result can only be the last one recorded, with status
failed: the loop breaks before attempting any further application. -/
theorem runLoop_stop_last (stop : Nat → Bool) (w : World)
    (hmono : ∀ a b : Nat, a ≤ b → stop a = true → stop b = true) :
    ∀ (apps : List String) (t : Nat) (s : RunState),
      (∀ r ∈ s.results, r.error ≠ some "Installation stopped by user") →
      ∀ (j : Nat) (r : AppResult),
        (runLoop stop w apps t s).results[j]? = some r →
        r.error = some "Installation stopped by user" →
        r.status = "failed" ∧
        j + 1 = (runLoop stop w apps t s).results.length := by
  intro apps
  induction apps with
  | nil =>
    intro t s hno j r hj herr
    exact absurd herr (hno r (List.getElem?_mem hj))
  | cons app rest ih =>
    intro t s hno j r hj herr
    by_cases h1 : stop t = true
    · rw [runLoop, if_pos h1] at hj ⊢
      exact absurd herr (hno r (List.getElem?_mem hj))
    · by_cases h2 : stop (t + 1) = true
      · rw [runLoop, if_neg h1, if_pos h2] at hj ⊢
        exact absurd herr (hno r (List.getElem?_mem hj))
      · by_cases hinst : w.isInstalled app = true
        · rcases hca : completeAppInstallation
              (startAppInstallation s.tracker app (t + 2) (w.clock (t + 2)))
              app true (some "Already installed") (t + 2) with ⟨tr1, raised⟩
          have hno' : ∀ r' ∈ s.results ++
              [⟨app, "already_installed", "00:00", none,
                "Application is already installed"⟩],
              r'.error ≠ some "Installation stopped by user" := by
            intro r' hr'
            rcases List.mem_append.mp hr' with hl | hr2
            · exact hno r' hl
            · rcases List.mem_singleton.mp hr2 with rfl
              intro hcon
              cases hcon
          cases raised with
          | true =>
            have hout : runLoop stop w (app :: rest) t s =
                ⟨tr1, s.results ++
                  [⟨app, "already_installed", "00:00", none,
                    "Application is already installed"⟩], s.trace, true⟩ := by
              rw [runLoop, if_neg h1, if_neg h2]
              simp only [hinst, if_true, hca]
            rw [hout] at hj
            exact absurd herr (hno' r (List.getElem?_mem hj))
          | false =>
            have hout : runLoop stop w (app :: rest) t s =
                runLoop stop w rest (t + 2)
                  ⟨tr1, s.results ++
                    [⟨app, "already_installed", "00:00", none,
                      "Application is already installed"⟩],
                   s.trace ++ [tr1.overallProgress], false⟩ := by
              rw [runLoop, if_neg h1, if_neg h2]
              simp only [hinst, if_true, hca]
              rfl
            rw [hout] at hj ⊢
            exact ih (t + 2) _ hno' j r hj herr
        · rcases hia : installApplication stop w
              (startAppInstallation s.tracker app (t + 2) (w.clock (t + 2)))
              app (t + 2) with ⟨tr1, out, t'⟩
          obtain ⟨ok, err, timeStr⟩ := out
          rcases hca : completeAppInstallation tr1 app ok
              (if ok then none else err) t' with ⟨tr2, raised⟩
          have houtT : raised = true → runLoop stop w (app :: rest) t s =
              ⟨tr2, s.results ++
                [⟨app, if ok then "success" else "failed", timeStr,
                  if ok then none else err,
                  if ok then "Installation completed successfully"
                  else "Installation failed"⟩], s.trace, true⟩ := by
            intro hr
            subst hr
            rw [runLoop, if_neg h1, if_neg h2]
            simp only [hinst, hia, hca]
            rfl
          have houtF : raised = false → runLoop stop w (app :: rest) t s =
              runLoop stop w rest t'
                ⟨tr2, s.results ++
                  [⟨app, if ok then "success" else "failed", timeStr,
                    if ok then none else err,
                    if ok then "Installation completed successfully"
                    else "Installation failed"⟩],
                 s.trace ++ [tr2.overallProgress], false⟩ := by
            intro hr
            subst hr
            rw [runLoop, if_neg h1, if_neg h2]
            simp only [hinst, hia, hca]
            rfl
          by_cases hstopres : (if ok then none else err : Option String) =
              some "Installation stopped by user"
          · -- the recorded result carries the stop message: the stop
            -- flag was seen inside install_application, so the next
            -- loop head read breaks the loop
            have hok : ok = false := by
              cases ok with
              | true => simp at hstopres
              | false => rfl
            subst hok
            simp only [if_false, Bool.false_eq_true] at hstopres houtT houtF
            have hsrc := installApplication_stop_source stop w
              (startAppInstallation s.tracker app (t + 2) (w.clock (t + 2)))
              app (t + 2)
            rw [hia] at hsrc
            obtain ⟨u, hu1, hu2, hu3⟩ := hsrc hstopres
            have hstopt' : stop t' = true := hmono u t' (Nat.le_of_lt hu2) hu3
            have hend : ∀ hres : (runLoop stop w (app :: rest) t s).results =
                s.results ++
                  [⟨app, "failed", timeStr, err, "Installation failed"⟩],
                r.status = "failed" ∧
                j + 1 = (runLoop stop w (app :: rest) t s).results.length := by
              intro hres
              rw [hres] at hj ⊢
              obtain ⟨hrx, hlen⟩ := append_stop_last hno hj herr
              subst hrx
              exact ⟨rfl, hlen⟩
            cases raised with
            | true => exact hend (by rw [houtT rfl])
            | false =>
              have hbreak := runLoop_stop_break stop w rest t'
                ⟨tr2, s.results ++
                  [⟨app, "failed", timeStr, err, "Installation failed"⟩],
                 s.trace ++ [tr2.overallProgress], false⟩ hstopt'
              exact hend (by rw [houtF rfl, hbreak])
          · have hno' : ∀ r' ∈ s.results ++
                [⟨app, if ok then "success" else "failed", timeStr,
                  if ok then none else err,
                  if ok then "Installation completed successfully"
                  else "Installation failed"⟩],
                r'.error ≠ some "Installation stopped by user" := by
              intro r' hr'
              rcases List.mem_append.mp hr' with hl | hr2
              · exact hno r' hl
              · rcases List.mem_singleton.mp hr2 with rfl
                exact hstopres
            cases raised with
            | true =>
              rw [houtT rfl] at hj
              exact absurd herr (hno' r (List.getElem?_mem hj))
            | false =>
              rw [houtF rfl] at hj ⊢
              exact ih t' _ hno' j r hj herr

/-! ## Claim C3 -/

/-- C3: if a recorded result of a run carries exactly the error text
"Installation stopped by user", then its status is failed, it is the
last recorded result (no later application in selection order is
attempted or recorded), the tracker counters equal the number of
applications actually processed, which never exceeds — and when the
stop struck before the last application, stays strictly below — the
original selection size. -/
theorem c3_stop_semantics (stop : Nat → Bool)
    (hmono : ∀ a b : Nat, a ≤ b → stop a = true → stop b = true)
    (w : World) (apps : List String) (j : Nat) (r : AppResult)
    (hr : (runInstallation stop w apps).results[j]? = some r)
    (hstop : r.error = some "Installation stopped by user") :
    r.status = "failed" ∧
    (runInstallation stop w apps).results.length = j + 1 ∧
    sumCounters (runInstallation stop w apps).tracker = j + 1 ∧
    (runInstallation stop w apps).results.map (fun x => x.name) =
      apps.take (j + 1) ∧
    j + 1 ≤ apps.length ∧
    (j + 1 < apps.length →
      sumCounters (runInstallation stop w apps).tracker < apps.length) := by
  unfold runInstallation at hr ⊢
  have hlast := runLoop_stop_last stop w hmono apps 0
    ⟨setTotalApps initialTracker apps.length, [], [], false⟩
    (by intro r' hr'; cases hr') j r hr hstop
  obtain ⟨-, hsum, ⟨n, hn, hmap, hlen⟩, -⟩ := runLoop_main stop w apps 0
    ⟨setTotalApps initialTracker apps.length, [], [], false⟩
  have hsum' := hsum rfl
  have hnval : n = j + 1 := by
    have h2 := hlast.2
    simp only [List.length_nil] at hlen
    omega
  refine ⟨hlast.1, hlast.2.symm, ?_, ?_, ?_, fun h => ?_⟩
  · rw [hsum', ← hlast.2]
  · rw [hmap, hnval]
    simp
  · rw [← hnval]
    exact hn
  · rw [hsum', ← hlast.2]
    exact h

/-- Witness for C3: selection of firefox and git, stop visible from the
third flag read onward, which is the first step checkpoint inside the
firefox installation. -/
theorem c3_stop_semantics_witness :
    ((⟨"firefox", "failed", "00:00", some "Installation stopped by user",
        "Installation failed"⟩ : AppResult).status = "failed") ∧
    (runInstallation (stopAt 2) smoothWorld
      ["firefox", "git"]).results.length = 0 + 1 ∧
    sumCounters (runInstallation (stopAt 2) smoothWorld
      ["firefox", "git"]).tracker = 0 + 1 ∧
    (runInstallation (stopAt 2) smoothWorld
      ["firefox", "git"]).results.map (fun x => x.name) =
      ["firefox", "git"].take (0 + 1) ∧
    0 + 1 ≤ (["firefox", "git"] : List String).length ∧
    (0 + 1 < (["firefox", "git"] : List String).length →
      sumCounters (runInstallation (stopAt 2) smoothWorld
        ["firefox", "git"]).tracker <
        (["firefox", "git"] : List String).length) :=
  c3_stop_semantics (stopAt 2)
    (by intro a b hab ha; simp only [stopAt, decide_eq_true_eq] at *; omega)
    smoothWorld ["firefox", "git"] 0
    ⟨"firefox", "failed", "00:00", some "Installation stopped by user",
     "Installation failed"⟩
    (by decide) rfl

/-! ## Claim C5 -/

/-- C5: every result the manager records has status success, failed or
already_installed; the skipped status is never produced, whatever the
stop signal, the command outcomes and the selection. -/
theorem c5_no_skipped (stop : Nat → Bool) (w : World) (apps : List String) :
    ((runInstallation stop w apps).results.all
      (fun r => (r.status == "success" || r.status == "failed" ||
                 r.status == "already_installed") &&
                (r.status != "skipped"))) = true := by
  rw [List.all_eq_true]
  intro r hr
  rcases (runLoop_main stop w apps 0
      ⟨setTotalApps initialTracker apps.length, [], [], false⟩).2.2.2 r hr with
    hfalse | hs | hs | hs
  · cases hfalse
  · rw [hs]; decide
  · rw [hs]; decide
  · rw [hs]; decide

/-! ## Claim C4 -/

/-- When every command succeeds and the stop flag stays down, the step
loop reports success. -/
theorem installStepsLoop_all_success (w : World)
    (hcmd : ∀ c, (w.runCommand c).1 = true) (app : String) :
    ∀ (cmds : List (String × String)) (n i t0 t : Nat) (tr : TrackerState),
      (installStepsLoop (fun _ => false) w tr app cmds n i t0 t).2.1.1 =
        true := by
  intro cmds
  induction cmds with
  | nil => intro n i t0 t tr; simp [installStepsLoop]
  | cons hd rest ih =>
    obtain ⟨stepName, command⟩ := hd
    intro n i t0 t tr
    rcases hc : w.runCommand command with ⟨ok, err⟩
    have hok : ok = true := by
      have := hcmd command
      rw [hc] at this
      exact this
    subst hok
    simpa [installStepsLoop, hc] using ih n (i + 1) t0 (t + 1) _

/-- Same fact for install_application on a cataloged id. -/
theorem installApplication_all_success (w : World)
    (hcmd : ∀ c, (w.runCommand c).1 = true) (tr : TrackerState)
    (app : String) (t : Nat)
    (hsome : (installationSteps.lookup app).isSome) :
    (installApplication (fun _ => false) w tr app t).2.1.1 = true := by
  unfold installApplication
  cases h : installationSteps.lookup app with
  | none => rw [h] at hsome; cases hsome
  | some cmds => exact installStepsLoop_all_success w hcmd app cmds _ 0 t t tr

/-- The trace of reported overall percentages in an all-success run:
one entry per application, the k-th being the float-computed percentage
for k processed out of the fixed total. -/
theorem runLoop_trace_success (w : World)
    (hcmd : ∀ c, (w.runCommand c).1 = true) :
    ∀ (apps : List String) (t : Nat) (tr : TrackerState)
      (res : List AppResult) (trace : List Nat),
      tr.totalApps ≠ 0 → tr.failedApps = 0 → tr.alreadyInstalledApps = 0 →
      (∀ a ∈ apps, w.isInstalled a = false) →
      (∀ a ∈ apps, (installationSteps.lookup a).isSome) →
      (runLoop (fun _ => false) w apps t ⟨tr, res, trace, false⟩).trace =
        trace ++ (List.range apps.length).map
          (fun i => pyProgress (tr.completedApps + 1 + i) tr.totalApps) := by
  intro apps
  induction apps with
  | nil =>
    intro t tr res trace h0 hf ha hni hcat
    simp [runLoop]
  | cons app rest ih =>
    intro t tr res trace h0 hf ha hni hcat
    have hinst : w.isInstalled app = false :=
      hni app (List.mem_cons_self app rest)
    rcases hia : installApplication (fun _ => false) w
        (startAppInstallation tr app (t + 2) (w.clock (t + 2))) app (t + 2)
      with ⟨tr1, out, t'⟩
    obtain ⟨ok, err, timeStr⟩ := out
    have hok : ok = true := by
      have := installApplication_all_success w hcmd
        (startAppInstallation tr app (t + 2) (w.clock (t + 2))) app (t + 2)
        (hcat app (List.mem_cons_self app rest))
      rw [hia] at this
      exact this
    subst hok
    have hic := installApplication_counters (fun _ => false) w
      (startAppInstallation tr app (t + 2) (w.clock (t + 2))) app (t + 2)
    rw [hia] at hic
    have htotal1 : tr1.totalApps = tr.totalApps := hic.1
    have hcomp1 : tr1.completedApps = tr.completedApps := hic.2.1
    have hfail1 : tr1.failedApps = 0 := by rw [hic.2.2.1]; exact hf
    have halready1 : tr1.alreadyInstalledApps = 0 := by
      rw [hic.2.2.2]; exact ha
    have h01 : ¬tr1.totalApps = 0 := by rw [htotal1]; exact h0
    have hcs := completeApp_success_fields tr1 app t' h01
    rcases hca : completeAppInstallation tr1 app true none t' with
      ⟨tr2, raised⟩
    rw [hca] at hcs
    obtain ⟨hraised, hcomp, hfail, halready, htotal, hoverall⟩ := hcs
    have hraised' : raised = false := hraised
    subst hraised'
    have hout : runLoop (fun _ => false) w (app :: rest) t
        ⟨tr, res, trace, false⟩ =
        runLoop (fun _ => false) w rest t'
          ⟨tr2, res ++ [⟨app, "success", timeStr, none,
            "Installation completed successfully"⟩],
           trace ++ [tr2.overallProgress], false⟩ := by
      rw [runLoop]
      simp [hinst, hia, hca]
    rw [hout]
    have hcomp2 : tr2.completedApps = tr.completedApps + 1 := by
      rw [hcomp, hcomp1]
    have hfail2 : tr2.failedApps = 0 := by rw [hfail]; exact hfail1
    have halready2 : tr2.alreadyInstalledApps = 0 := by
      rw [halready]; exact halready1
    have htotal2 : tr2.totalApps = tr.totalApps := by rw [htotal, htotal1]
    have h02 : tr2.totalApps ≠ 0 := by rw [htotal2]; exact h0
    rw [ih t' tr2 _ _ h02 hfail2 halready2
      (fun a hha => hni a (List.mem_cons_of_mem app hha))
      (fun a hha => hcat a (List.mem_cons_of_mem app hha))]
    have hov : tr2.overallProgress =
        pyProgress (tr.completedApps + 1) tr.totalApps := by
      rw [hoverall, hcomp1, hfail1, halready1, htotal1]
    rw [hov]
    simp only [hcomp2, htotal2, List.length_cons, List.range_succ_eq_map,
      List.map_cons, List.map_map, List.append_assoc, List.singleton_append]
    congr 2
    apply List.map_congr_left
    intro i hi
    simp only [Function.comp_apply]
    congr 1
    omega

set_option maxRecDepth 100000 in
set_option maxHeartbeats 2000000 in
/-- The float computation agrees with exact floor division on every
total the selection UI can produce (the catalog offers 17 distinct
applications). -/
theorem pyProgress_floor_small :
    ∀ N < 18, ∀ k < 18, 1 ≤ k → k ≤ N → pyProgress k N = 100 * k / N := by
  decide

/-- C4 (amended): in every all-success run whose selection size is at
most the 17 distinct applications the UI offers, the overall percentage
reported right after the k-th completion equals floor(100k/N) exactly;
for larger (UI-unreachable) selection sizes the float computation can
fall one short of the floor. -/
theorem c4_progress_floor (w : World) (apps : List String)
    (hN : apps.length ≤ 17)
    (hninst : ∀ a ∈ apps, w.isInstalled a = false)
    (hcmd : ∀ c, (w.runCommand c).1 = true)
    (hcat : ∀ a ∈ apps, (installationSteps.lookup a).isSome) :
    (runInstallation (fun _ => false) w apps).trace =
      (List.range apps.length).map
        (fun i => 100 * (i + 1) / apps.length) := by
  by_cases hne : apps = []
  · subst hne
    rfl
  · have hlen0 : apps.length ≠ 0 := fun h => hne (List.length_eq_zero.mp h)
    have h := runLoop_trace_success w hcmd apps 0
      (setTotalApps initialTracker apps.length) [] [] hlen0 rfl rfl
      hninst hcat
    rw [runInstallation, h]
    simp only [List.nil_append]
    apply List.map_congr_left
    intro i hi
    have hiN : i < apps.length := List.mem_range.mp hi
    have := pyProgress_floor_small apps.length (by omega) (i + 1) (by omega)
      (by omega) (by omega)
    calc pyProgress (0 + 1 + i) apps.length
        = pyProgress (i + 1) apps.length := by
          congr 1
          omega
      _ = 100 * (i + 1) / apps.length := this

set_option maxRecDepth 1000000 in
set_option maxHeartbeats 4000000 in
/-- C4 counterexample: a 50-application all-success run (the
installation manager accepts any selection list); after the 29th
completion the reported overall percentage is 57, while
floor(100*29/50) = 58 — Python's float arithmetic rounds 29/50 * 100
just below 58 before int() truncates. -/
theorem c4_progress_counterexample :
    (runInstallation (fun _ => false) smoothWorld
      (List.replicate 50 "htop")).trace[28]? = some 57 ∧
    100 * 29 / 50 = 58 := by
  constructor
  · decide
  · decide

/-- Witness for C4's amended theorem: four applications, trace of
reported percentages 25, 50, 75, 100 — in particular 75 after the third
completion. -/
theorem c4_progress_floor_witness :
    (runInstallation (fun _ => false) smoothWorld
      ["firefox", "git", "htop", "vlc"]).trace = [25, 50, 75, 100] := by
  have h := c4_progress_floor smoothWorld ["firefox", "git", "htop", "vlc"]
    (by decide) (fun a _ => rfl) (fun c => rfl) (by decide)
  rw [h]
  decide

end LumiSetup

